import Mathlib

/-!
# BYU Mars Rover 2017 PSoC firmware: `isrHandler.c`

A shallow embedding of the event handlers of `src/isrHandler.c` and the properties
of the protocol decoders stated for them.

Conventions of the embedding.

* A serial receive channel is the list of 16-bit words that `*_GetByte` will return,
  oldest first (`MSB` = status, `LSB` = data).  The loop condition
  `GetRxBufferSize() || (ReadRxStatus() & RX_STS_FIFO_NOTEMPTY)` is "the list is not empty".
* C `static` and global variables are fields of explicit state records.
* `uint8_t` / `uint16_t` values are `Nat`, truncated with `% 256` / `% 65536` where the
  C assignment truncates; `int16_t` values are `Int`.
* Calls to peripheral drivers and to `pololuControl` are recorded, in program order,
  in a list of `Out` events.
-/

namespace IsrHandler

/-! ## Constants of `isrHandler.h` and `isrHandler.c` -/

/-- Value of `SERVO_NEUTRAL`. -/
def SERVO_NEUTRAL : Nat := 1500
/-- Value of `SERVO_MAX`. -/
def SERVO_MAX : Nat := 2000
/-- Value of `SERVO_MIN`. -/
def SERVO_MIN : Nat := 1000
/-- Value of `COMP_RX_EVENT`. -/
def COMP_RX_EVENT : Nat := 0x0001
/-- Value of `SUCCESS`. -/
def SUCCESS : Nat := 0
/-- Value of `UART_READ_ERROR`. -/
def UART_READ_ERROR : Nat := 1
/-- Value of `MESSAGE_ERROR`. -/
def MESSAGE_ERROR : Nat := 2
/-- Value of `POSITION_PAYLOAD_SIZE`. -/
def POSITION_PAYLOAD_SIZE : Nat := 13
/-- Value of `PREAMBLE0`. -/
def PREAMBLE0 : Nat := 0xEA

/-- Motor identifiers of `pololuControl.h` (the header is not part of the sources at
hand, so the macros are kept symbolic). -/
inductive PololuMotor
  | POLOLUCONTROL_TURRET
  | POLOLUCONTROL_SHOULDER
  | POLOLUCONTROL_ELBOW
  | POLOLUCONTROL_FOREARM
  deriving DecidableEq, Repr

/-- Command identifiers of `pololuControl.h` used by `isrHandler.c` (kept symbolic). -/
inductive PololuCommand
  | POLOLUCONTROL_READ_FEEDBACK_COMMAND
  deriving DecidableEq, Repr

/-- One call to a peripheral driver or to `pololuControl`, with its arguments. -/
inductive Out
  | PWM_Drive_WriteCompare1 (v : Nat)
  | leftWheelDir_Write (v : Nat)
  | PWM_Drive_WriteCompare2 (v : Nat)
  | rightWheelDir_Write (v : Nat)
  | pololuControl_driveMotor (target : Nat) (motor : PololuMotor)
  | hand_a_Write (v : Nat)
  | hand_b_Write (v : Nat)
  | hand_en_Write (v : Nat)
  | chute1a_Write (v : Nat)
  | chute1b_Write (v : Nat)
  | chute2a_Write (v : Nat)
  | chute2b_Write (v : Nat)
  | chute3a_Write (v : Nat)
  | chute3b_Write (v : Nat)
  | chute4a_Write (v : Nat)
  | chute4b_Write (v : Nat)
  | PWM_BoxLid_WriteCompare (v : Nat)
  | UART_Computer_PutArray (bytes : List Nat)
  | UART_ScienceMCU_PutChar (c : Nat)
  | pololuControl_readVariable (command : PololuCommand) (motor : PololuMotor)
  deriving DecidableEq, Repr

/-- C logical negation `!x` of an integer: `1` if `x` is zero, `0` otherwise. -/
def lnot (x : Nat) : Nat := if x = 0 then 1 else 0

/-- Conversion of a 16-bit pattern to `int16_t` (two's complement). -/
def toInt16 (n : Nat) : Int :=
  if n % 65536 < 32768 then ((n % 65536 : Nat) : Int) else ((n % 65536 : Nat) : Int) - 65536

/-! ## Global data of `isrHandler.c` -/

/-- The `struct Payload`: the last positions written to the motors. -/
structure Payload where
  leftWheels : Nat
  leftWheelsDir : Nat
  rightWheels : Nat
  rightWheelsDir : Nat
  chutes : Nat
  turretDest : Nat
  shoulderDest : Nat
  elbowDest : Nat
  forearmDest : Nat
  handDest : Nat
  deriving DecidableEq, Repr

/-- The `enum compRxStates_e`. -/
inductive compRxStates_e
  | pre0 | leftlo | lefthi | leftdir | rightlo | righthi | rightdir
  | turretlo | turrethi | shoulderlo | shoulderhi | elbowlo | elbowhi
  | forearmlo | forearmhi | handlo | chutes
  deriving DecidableEq, Repr

/-- The variables read or written by `compRxEventHandler`: the globals `compRxState`,
`Payload` and `events`, and the function statics `data` and `byte`. -/
structure CompRx where
  compRxState : compRxStates_e
  Payload : Payload
  data : Nat
  byte : Nat
  events : Nat
  deriving DecidableEq, Repr

/-- The published readings: the globals `turretPos`, `shoulderPos`, `elbowPos`,
`forearmPos` (`uint16_t`) and `temperature`, `humidity` (`int16_t`). -/
structure Readings where
  turretPos : Nat
  shoulderPos : Nat
  elbowPos : Nat
  forearmPos : Nat
  temperature : Int
  humidity : Int
  deriving DecidableEq, Repr

/-! ## `driveHand` and `control_chutes` -/

/-- The function `driveHand`: the pin writes it performs, in order. -/
def driveHand (pos : Nat) : List Out :=
  if pos = 1 then
    [.hand_a_Write 1, .hand_b_Write 0, .hand_en_Write 1]
  else if pos = 2 then
    [.hand_b_Write 1, .hand_a_Write 0, .hand_en_Write 1]
  else
    [.hand_a_Write 0, .hand_b_Write 0, .hand_en_Write 0]

/-- The function `control_chutes`: the pin writes it performs, in order. -/
def control_chutes (byte : Nat) : List Out :=
  (if byte &&& 0x1 ≠ 0 then [Out.chute1b_Write 0, Out.chute1a_Write 1]
   else [Out.chute1a_Write 0, Out.chute1b_Write 1]) ++
  (if byte &&& 0x2 ≠ 0 then [Out.chute2b_Write 0, Out.chute2a_Write 1]
   else [Out.chute2a_Write 0, Out.chute2b_Write 1]) ++
  (if byte &&& 0x4 ≠ 0 then [Out.chute3b_Write 0, Out.chute3a_Write 1]
   else [Out.chute3a_Write 0, Out.chute3b_Write 1]) ++
  (if byte &&& 0x8 ≠ 0 then [Out.chute4b_Write 0, Out.chute4a_Write 1]
   else [Out.chute4a_Write 0, Out.chute4b_Write 1])

/-! ## `compRxEventHandler` -/

/-- The `switch (compRxState)` of `compRxEventHandler`, run on the data byte held in
`s.byte`: the new variables and the driver calls made. -/
def compRxSwitch (s : CompRx) : CompRx × List Out :=
  let byte := s.byte
  match s.compRxState with
  | .pre0 =>
    if byte = PREAMBLE0 then ({ s with compRxState := .leftlo }, []) else (s, [])
  | .leftlo =>
    ({ s with Payload := { s.Payload with leftWheels := byte }, compRxState := .lefthi }, [])
  | .lefthi =>
    let p := { s.Payload with leftWheels := (s.Payload.leftWheels ||| (byte <<< 8)) % 65536 }
    ({ s with Payload := p, compRxState := .leftdir }, [.PWM_Drive_WriteCompare1 p.leftWheels])
  | .leftdir =>
    ({ s with compRxState := .rightlo }, [.leftWheelDir_Write (lnot byte)])
  | .rightlo =>
    ({ s with Payload := { s.Payload with rightWheels := byte }, compRxState := .righthi }, [])
  | .righthi =>
    let p := { s.Payload with rightWheels := (s.Payload.rightWheels ||| (byte <<< 8)) % 65536 }
    ({ s with Payload := p, compRxState := .rightdir }, [.PWM_Drive_WriteCompare2 p.rightWheels])
  | .rightdir =>
    ({ s with compRxState := .turretlo }, [.rightWheelDir_Write byte])
  | .turretlo =>
    ({ s with Payload := { s.Payload with turretDest := byte }, compRxState := .turrethi }, [])
  | .turrethi =>
    let p := { s.Payload with turretDest := (s.Payload.turretDest ||| (byte <<< 8)) % 65536 }
    ({ s with Payload := p, compRxState := .shoulderlo },
      [.pololuControl_driveMotor p.turretDest .POLOLUCONTROL_TURRET])
  | .shoulderlo =>
    ({ s with Payload := { s.Payload with shoulderDest := byte }, compRxState := .shoulderhi }, [])
  | .shoulderhi =>
    let p := { s.Payload with shoulderDest := (s.Payload.shoulderDest ||| (byte <<< 8)) % 65536 }
    ({ s with Payload := p, compRxState := .elbowlo },
      [.pololuControl_driveMotor p.shoulderDest .POLOLUCONTROL_SHOULDER])
  | .elbowlo =>
    ({ s with Payload := { s.Payload with elbowDest := byte }, compRxState := .elbowhi }, [])
  | .elbowhi =>
    let p := { s.Payload with elbowDest := (s.Payload.elbowDest ||| (byte <<< 8)) % 65536 }
    ({ s with Payload := p, compRxState := .forearmlo },
      [.pololuControl_driveMotor p.elbowDest .POLOLUCONTROL_ELBOW])
  | .forearmlo =>
    ({ s with Payload := { s.Payload with forearmDest := byte }, compRxState := .forearmhi }, [])
  | .forearmhi =>
    let p := { s.Payload with forearmDest := (s.Payload.forearmDest ||| (byte <<< 8)) % 65536 }
    ({ s with Payload := p, compRxState := .handlo },
      [.pololuControl_driveMotor p.forearmDest .POLOLUCONTROL_FOREARM])
  | .handlo =>
    let p := { s.Payload with handDest := byte }
    ({ s with Payload := p, compRxState := .chutes }, driveHand p.handDest)
  | .chutes =>
    ({ s with compRxState := .pre0 },
      (if byte &&& 0x40 ≠ 0 then control_chutes byte else []) ++
      (if byte &&& 0x80 ≠ 0 then [Out.PWM_BoxLid_WriteCompare SERVO_MIN]
       else [Out.PWM_BoxLid_WriteCompare SERVO_MAX]))

/-- Outcome of the `while` loop of `compRxEventHandler`: the variables, the driver calls
made, the words left in the receive buffer, and the value returned from inside the loop
(`none` when the loop ended because the buffer was empty). -/
structure CompRxLoop where
  st : CompRx
  out : List Out
  rx : List Nat
  ret : Option Nat
  deriving DecidableEq, Repr

/-- The `while` loop of `compRxEventHandler` over the receive buffer `rx`. -/
def compRxLoop (s : CompRx) : List Nat → CompRxLoop
  | [] => ⟨s, [], [], none⟩
  | w :: rest =>
    let s1 := { s with data := w % 65536 }
    if s1.data &&& 0xff00 ≠ 0 then
      ⟨s1, [], rest, some UART_READ_ERROR⟩
    else
      let s2 := { s1 with byte := (s1.data &&& 0xff) % 256 }
      let r := compRxLoop (compRxSwitch s2).1 rest
      ⟨r.st, (compRxSwitch s2).2 ++ r.out, r.rx, r.ret⟩

/-- Outcome of one call of `compRxEventHandler`. -/
structure CompRxResult where
  st : CompRx
  out : List Out
  rx : List Nat
  ret : Nat
  deriving DecidableEq, Repr

/-- The function `compRxEventHandler`, called with `rx` in the receive buffer. -/
def compRxEventHandler (s : CompRx) (rx : List Nat) : CompRxResult :=
  let r := compRxLoop s rx
  match r.ret with
  | some e => ⟨r.st, r.out, r.rx, e⟩
  | none =>
    let s1 := if r.rx ≠ [] then { r.st with events := r.st.events ||| COMP_RX_EVENT } else r.st
    ⟨s1, r.out, r.rx, SUCCESS⟩

/-- Successive calls of `compRxEventHandler`, one per chunk of arriving words: each call
finds in the buffer what the previous call left there followed by the new chunk.
Returns the final variables and all driver calls made, in order. -/
def compRxFeed (s : CompRx) (pending : List Nat) : List (List Nat) → CompRx × List Out
  | [] => (s, [])
  | c :: cs =>
    let r := compRxEventHandler s (pending ++ c)
    let t := compRxFeed r.st r.rx cs
    (t.1, r.out ++ t.2)

/-- Values of the variables of `compRxEventHandler` at process start (static storage is
zero-initialised, and `pre0` is the enumerator `0`). -/
def compRxInit : CompRx :=
  { compRxState := .pre0
    Payload := ⟨0, 0, 0, 0, 0, 0, 0, 0, 0, 0⟩
    data := 0
    byte := 0
    events := 0 }

/-- Values of the published readings at process start. -/
def readingsInit : Readings :=
  { turretPos := 0, shoulderPos := 0, elbowPos := 0, forearmPos := 0,
    temperature := 0, humidity := 0 }

/-! ## `scienceEventHandler` -/

/-- The `enum states_e` local to `scienceEventHandler`. -/
inductive scienceStates_e
  | pre0 | pre1 | templo | temphi | humlo | humhi
  deriving DecidableEq, Repr

/-- The function statics `state` and `temp` of `scienceEventHandler`. -/
structure ScienceStatics where
  state : scienceStates_e
  temp : Nat
  deriving DecidableEq, Repr

/-- Values of the statics of `scienceEventHandler` at process start:
`static enum states_e state = templo; static uint16_t temp = 0;`. -/
def scienceInit : ScienceStatics := { state := .templo, temp := 0 }

/-- The `switch (state)` of `scienceEventHandler` on a word `byte` that passed the status
check (so `byte`, an `int16_t` in the source, is one of `0 .. 255`). -/
def scienceSwitch (st : ScienceStatics) (g : Readings) (byte : Nat) :
    ScienceStatics × Readings :=
  match st.state with
  | .pre0 =>
    if byte = 0xff then ({ st with state := .pre1 }, g) else (st, g)
  | .pre1 =>
    if byte = 0x9e then ({ st with state := .templo }, g) else ({ st with state := .pre0 }, g)
  | .templo =>
    ({ state := .temphi, temp := byte % 65536 }, g)
  | .temphi =>
    let temp := (st.temp ||| (0xff00 &&& (byte <<< 8))) % 65536
    ({ state := .humlo, temp := temp },
      if temp ≤ 100 then { g with temperature := toInt16 temp } else g)
  | .humlo =>
    ({ state := .humhi, temp := byte % 65536 }, g)
  | .humhi =>
    let temp := (st.temp ||| (0xff00 &&& (byte <<< 8))) % 65536
    ({ state := .pre0, temp := temp },
      if g.humidity ≤ 1023 then { g with humidity := toInt16 temp } else g)

/-- Outcome of one call of `scienceEventHandler`: its statics, the published readings and
the words left in the receive buffer. -/
structure ScienceResult where
  st : ScienceStatics
  g : Readings
  rx : List Nat
  deriving DecidableEq, Repr

/-- The function `scienceEventHandler`, called with `rx` in the receive buffer.  The test
`byte & 0xff00` sees the same sixteen bits whether the word is read as `uint16_t` or as
`int16_t`, so it is taken on the word itself. -/
def scienceEventHandler (st : ScienceStatics) (g : Readings) : List Nat → ScienceResult
  | [] => ⟨st, g, []⟩
  | w :: rest =>
    let byte := w % 65536
    if byte &&& 0xff00 ≠ 0 then
      ⟨st, g, rest⟩
    else
      scienceEventHandler (scienceSwitch st g byte).1 (scienceSwitch st g byte).2 rest

/-! ## Joint position decoders -/

/-- The `enum states_e {low, high}` local to each of the four `update*Pos` functions. -/
inductive posStates_e
  | low | high
  deriving DecidableEq, Repr

/-- The function statics `state` and `temp` of one `update*Pos` function. -/
structure PosStatics where
  state : posStates_e
  temp : Nat
  deriving DecidableEq, Repr

/-- Values of the statics of an `update*Pos` function at process start. -/
def posInit : PosStatics := { state := .low, temp := 0 }

/-- Outcome of one call of an `update*Pos` function: its statics, the published readings,
the words left in the receive FIFO and the number of loop iterations executed. -/
structure PosResult where
  st : PosStatics
  g : Readings
  rx : List Nat
  iters : Nat
  deriving DecidableEq, Repr

/-- The function `updateTurretPos`, called with `rx` in the receive FIFO.  Every iteration
reads one word. -/
def updateTurretPos (st : PosStatics) (g : Readings) : List Nat → PosResult
  | [] => ⟨st, g, [], 0⟩
  | w :: rest =>
    match st.state with
    | .low =>
      let r := updateTurretPos { state := .high, temp := (w % 65536) &&& 0xff } g rest
      { r with iters := r.iters + 1 }
    | .high =>
      let temp := (st.temp ||| (((w % 65536) <<< 8) &&& 0xff00)) % 65536
      let r := updateTurretPos { state := .low, temp := temp }
        (if temp ≤ 4095 then { g with turretPos := temp } else g) rest
      { r with iters := r.iters + 1 }

/-- The `while` loop of `updateShoulderPos`, for at most `fuel` iterations.  In the `high`
state a word is read only under the guard `temp <= 4095`. -/
def updateShoulderPosLoop : Nat → PosStatics → Readings → List Nat → PosResult
  | 0, st, g, rx => ⟨st, g, rx, 0⟩
  | _ + 1, st, g, [] => ⟨st, g, [], 0⟩
  | fuel + 1, st, g, w :: rest =>
    match st.state with
    | .low =>
      let r := updateShoulderPosLoop fuel { state := .high, temp := (w % 65536) &&& 0xff } g rest
      { r with iters := r.iters + 1 }
    | .high =>
      if st.temp ≤ 4095 then
        let temp := (st.temp ||| (((w % 65536) <<< 8) &&& 0xff00)) % 65536
        let r := updateShoulderPosLoop fuel { state := .low, temp := temp }
          { g with shoulderPos := temp } rest
        { r with iters := r.iters + 1 }
      else
        let r := updateShoulderPosLoop fuel { st with state := .low }
          { g with shoulderPos := st.temp } (w :: rest)
        { r with iters := r.iters + 1 }

/-- The function `updateShoulderPos`, called with `rx` in the receive FIFO.  An iteration
that reads nothing is followed by one that reads, so `2 * rx.length + 1` iterations are
enough to empty the FIFO. -/
def updateShoulderPos (st : PosStatics) (g : Readings) (rx : List Nat) : PosResult :=
  updateShoulderPosLoop (2 * rx.length + 1) st g rx

/-- The `while` loop of `updateElbowPos`, for at most `fuel` iterations. -/
def updateElbowPosLoop : Nat → PosStatics → Readings → List Nat → PosResult
  | 0, st, g, rx => ⟨st, g, rx, 0⟩
  | _ + 1, st, g, [] => ⟨st, g, [], 0⟩
  | fuel + 1, st, g, w :: rest =>
    match st.state with
    | .low =>
      let r := updateElbowPosLoop fuel { state := .high, temp := (w % 65536) &&& 0xff } g rest
      { r with iters := r.iters + 1 }
    | .high =>
      if st.temp ≤ 4095 then
        let temp := (st.temp ||| (((w % 65536) <<< 8) &&& 0xff00)) % 65536
        let r := updateElbowPosLoop fuel { state := .low, temp := temp }
          { g with elbowPos := temp } rest
        { r with iters := r.iters + 1 }
      else
        let r := updateElbowPosLoop fuel { st with state := .low }
          { g with elbowPos := st.temp } (w :: rest)
        { r with iters := r.iters + 1 }

/-- The function `updateElbowPos`, called with `rx` in the receive FIFO. -/
def updateElbowPos (st : PosStatics) (g : Readings) (rx : List Nat) : PosResult :=
  updateElbowPosLoop (2 * rx.length + 1) st g rx

/-- The `while` loop of `updateForearmPos`, for at most `fuel` iterations. -/
def updateForearmPosLoop : Nat → PosStatics → Readings → List Nat → PosResult
  | 0, st, g, rx => ⟨st, g, rx, 0⟩
  | _ + 1, st, g, [] => ⟨st, g, [], 0⟩
  | fuel + 1, st, g, w :: rest =>
    match st.state with
    | .low =>
      let r := updateForearmPosLoop fuel { state := .high, temp := (w % 65536) &&& 0xff } g rest
      { r with iters := r.iters + 1 }
    | .high =>
      if st.temp ≤ 4095 then
        let temp := (st.temp ||| (((w % 65536) <<< 8) &&& 0xff00)) % 65536
        let r := updateForearmPosLoop fuel { state := .low, temp := temp }
          { g with forearmPos := temp } rest
        { r with iters := r.iters + 1 }
      else
        let r := updateForearmPosLoop fuel { st with state := .low }
          { g with forearmPos := st.temp } (w :: rest)
        { r with iters := r.iters + 1 }

/-- The function `updateForearmPos`, called with `rx` in the receive FIFO. -/
def updateForearmPos (st : PosStatics) (g : Readings) (rx : List Nat) : PosResult :=
  updateForearmPosLoop (2 * rx.length + 1) st g rx

/-! ## `heartbeatEventHandler` -/

/-- The contents of `feedbackArray` after the thirteen assignments of
`feedbackToOnboardComputer` (each entry is a `uint8_t`). -/
def feedbackArray (g : Readings) : List Nat :=
  [ 0xE3 % 256,
    (g.turretPos &&& 0xff) % 256,
    ((g.turretPos >>> 8) &&& 0xff) % 256,
    (g.shoulderPos &&& 0xff) % 256,
    ((g.shoulderPos >>> 8) &&& 0xff) % 256,
    (g.elbowPos &&& 0xff) % 256,
    ((g.elbowPos >>> 8) &&& 0xff) % 256,
    (g.forearmPos &&& 0xff) % 256,
    ((g.forearmPos >>> 8) &&& 0xff) % 256,
    (Int.land g.temperature 0xff).toNat % 256,
    (Int.land (g.temperature >>> (8 : Nat)) 0xff).toNat % 256,
    (Int.land g.humidity 0xff).toNat % 256,
    (Int.land (g.humidity >>> (8 : Nat)) 0xff).toNat % 256 ]

/-- The function `feedbackToOnboardComputer`: it fills `feedbackArray` and sends its first
`POSITION_PAYLOAD_SIZE` bytes with one `UART_Computer_PutArray` call. -/
def feedbackToOnboardComputer (g : Readings) : List Out :=
  [.UART_Computer_PutArray ((feedbackArray g).take POSITION_PAYLOAD_SIZE)]

/-- Outcome of one call of `heartbeatEventHandler`: the published readings afterwards and
the driver calls made. -/
structure HeartbeatResult where
  g : Readings
  out : List Out
  deriving DecidableEq, Repr

/-- The function `heartbeatEventHandler`, compiled with `DEBUG_MODE` equal to `0`. -/
def heartbeatEventHandler (g : Readings) : HeartbeatResult :=
  { g := g
    out := feedbackToOnboardComputer g ++
      [ .UART_ScienceMCU_PutChar 0xae,
        .UART_ScienceMCU_PutChar 1,
        .pololuControl_readVariable .POLOLUCONTROL_READ_FEEDBACK_COMMAND .POLOLUCONTROL_TURRET,
        .pololuControl_readVariable .POLOLUCONTROL_READ_FEEDBACK_COMMAND .POLOLUCONTROL_SHOULDER,
        .pololuControl_readVariable .POLOLUCONTROL_READ_FEEDBACK_COMMAND .POLOLUCONTROL_ELBOW,
        .pololuControl_readVariable .POLOLUCONTROL_READ_FEEDBACK_COMMAND .POLOLUCONTROL_FOREARM ] }

/-! ## Vocabulary of the claims on the command decoder -/

/-- Puts driver calls in front of those of a loop outcome. -/
def CompRxLoop.after (o : List Out) (r : CompRxLoop) : CompRxLoop :=
  ⟨r.st, o ++ r.out, r.rx, r.ret⟩

/-- The sixteen field bytes of a command frame, named after the decoder states that
consume them (`hand` is consumed in `handlo`). -/
structure CommandFrame where
  leftLo : Nat
  leftHi : Nat
  leftDir : Nat
  rightLo : Nat
  rightHi : Nat
  rightDir : Nat
  turretLo : Nat
  turretHi : Nat
  shoulderLo : Nat
  shoulderHi : Nat
  elbowLo : Nat
  elbowHi : Nat
  forearmLo : Nat
  forearmHi : Nat
  hand : Nat
  chutes : Nat
  deriving DecidableEq, Repr

/-- The field bytes of a frame in transmission order. -/
def CommandFrame.fields (f : CommandFrame) : List Nat :=
  [f.leftLo, f.leftHi, f.leftDir, f.rightLo, f.rightHi, f.rightDir, f.turretLo, f.turretHi,
   f.shoulderLo, f.shoulderHi, f.elbowLo, f.elbowHi, f.forearmLo, f.forearmHi, f.hand,
   f.chutes]

/-- The words of a frame on the uplink: the preamble, then the fields, all with a zero
status byte. -/
def CommandFrame.words (f : CommandFrame) : List Nat := PREAMBLE0 :: f.fields

/-- A frame is well formed when each of its fields is a byte. -/
def CommandFrame.wellFormed (f : CommandFrame) : Prop := ∀ b ∈ f.fields, b < 256

instance (f : CommandFrame) : Decidable f.wellFormed := by
  unfold CommandFrame.wellFormed
  infer_instance

/-- The driver calls expected for one frame, one block per field in frame order: left wheel
speed, left wheel direction, right wheel speed, right wheel direction, the four joints,
the hand, and the chutes byte (chute lines under bit 6, then the lid). -/
def routerCalls (f : CommandFrame) : List Out :=
  [.PWM_Drive_WriteCompare1 (f.leftLo + 256 * f.leftHi)] ++
  [.leftWheelDir_Write (lnot f.leftDir)] ++
  [.PWM_Drive_WriteCompare2 (f.rightLo + 256 * f.rightHi)] ++
  [.rightWheelDir_Write f.rightDir] ++
  [.pololuControl_driveMotor (f.turretLo + 256 * f.turretHi) .POLOLUCONTROL_TURRET] ++
  [.pololuControl_driveMotor (f.shoulderLo + 256 * f.shoulderHi) .POLOLUCONTROL_SHOULDER] ++
  [.pololuControl_driveMotor (f.elbowLo + 256 * f.elbowHi) .POLOLUCONTROL_ELBOW] ++
  [.pololuControl_driveMotor (f.forearmLo + 256 * f.forearmHi) .POLOLUCONTROL_FOREARM] ++
  driveHand f.hand ++
  ((if f.chutes &&& 0x40 ≠ 0 then control_chutes f.chutes else []) ++
   (if f.chutes &&& 0x80 ≠ 0 then [Out.PWM_BoxLid_WriteCompare SERVO_MIN]
    else [Out.PWM_BoxLid_WriteCompare SERVO_MAX]))

/-- The `Payload` after one frame has been decoded. -/
def payloadAfter (p : Payload) (f : CommandFrame) : Payload :=
  { p with
    leftWheels := f.leftLo + 256 * f.leftHi
    rightWheels := f.rightLo + 256 * f.rightHi
    turretDest := f.turretLo + 256 * f.turretHi
    shoulderDest := f.shoulderLo + 256 * f.shoulderHi
    elbowDest := f.elbowLo + 256 * f.elbowHi
    forearmDest := f.forearmLo + 256 * f.forearmHi
    handDest := f.hand }

/-- The groups of command fields in the order "wheels, wheel directions, four joints, hand,
chutes". -/
inductive FieldGroup
  | wheels | wheelDirections | joints | hand | chutes
  deriving DecidableEq, Repr

/-- Position of a group in the order "wheels, wheel directions, four joints, hand,
chutes". -/
def FieldGroup.rank : FieldGroup → Nat
  | .wheels => 0
  | .wheelDirections => 1
  | .joints => 2
  | .hand => 3
  | .chutes => 4

/-- The group of command fields that a driver call of `compRxEventHandler` serves (`none`
for the calls only made by `heartbeatEventHandler`). -/
def Out.fieldGroup : Out → Option FieldGroup
  | .PWM_Drive_WriteCompare1 _ => some .wheels
  | .PWM_Drive_WriteCompare2 _ => some .wheels
  | .leftWheelDir_Write _ => some .wheelDirections
  | .rightWheelDir_Write _ => some .wheelDirections
  | .pololuControl_driveMotor _ _ => some .joints
  | .hand_a_Write _ => some .hand
  | .hand_b_Write _ => some .hand
  | .hand_en_Write _ => some .hand
  | .chute1a_Write _ => some .chutes
  | .chute1b_Write _ => some .chutes
  | .chute2a_Write _ => some .chutes
  | .chute2b_Write _ => some .chutes
  | .chute3a_Write _ => some .chutes
  | .chute3b_Write _ => some .chutes
  | .chute4a_Write _ => some .chutes
  | .chute4b_Write _ => some .chutes
  | .PWM_BoxLid_WriteCompare _ => some .chutes
  | .UART_Computer_PutArray _ => none
  | .UART_ScienceMCU_PutChar _ => none
  | .pololuControl_readVariable _ _ => none

/-- The frame whose sixteen fields are all zero. -/
def zeroFrame : CommandFrame := ⟨0, 0, 0, 0, 0, 0, 0, 0, 0, 0, 0, 0, 0, 0, 0, 0⟩

/-- A sample well-formed frame: left speed `0x1234`, right speed `0x5678`, turret `4095`,
shoulder `4096`, hand command `2` (close), chutes byte `0xC5` (bits 6 and 7 set). -/
def demoFrame : CommandFrame :=
  ⟨0x34, 0x12, 1, 0x78, 0x56, 0, 0xff, 0x0f, 0x00, 0x10, 1, 2, 3, 4, 2, 0xC5⟩

/-- A split of `demoFrame.words` into five non-empty chunks, cutting 16-bit fields in two. -/
def demoChunks : List (List Nat) :=
  [[0xEA, 0x34], [0x12, 1, 0x78], [0x56], [0, 0xff, 0x0f, 0x00, 0x10, 1, 2, 3], [4, 2, 0xC5]]

/-! ## Vocabulary of the claims on resynchronisation and on the output lines -/

/-- Number of bytes `compRxEventHandler` consumes from a cursor state before the cursor is
back at `pre0` without having examined a preamble: none in `pre0`, sixteen in `leftlo`,
down to one in `chutes`. -/
def bytesToPreamble : compRxStates_e → Nat
  | .pre0 => 0
  | .leftlo => 16
  | .lefthi => 15
  | .leftdir => 14
  | .rightlo => 13
  | .righthi => 12
  | .rightdir => 11
  | .turretlo => 10
  | .turrethi => 9
  | .shoulderlo => 8
  | .shoulderhi => 7
  | .elbowlo => 6
  | .elbowhi => 5
  | .forearmlo => 4
  | .forearmhi => 3
  | .handlo => 2
  | .chutes => 1

/-- The driver calls that forward an assembled 16-bit field: the two wheel speeds and the
joint destinations. -/
def Out.is16BitField : Out → Bool
  | .PWM_Drive_WriteCompare1 _ => true
  | .PWM_Drive_WriteCompare2 _ => true
  | .pololuControl_driveMotor _ _ => true
  | _ => false

/-- The driver calls that write a chute drive line. -/
def Out.isChuteWrite : Out → Bool
  | .chute1a_Write _ => true
  | .chute1b_Write _ => true
  | .chute2a_Write _ => true
  | .chute2b_Write _ => true
  | .chute3a_Write _ => true
  | .chute3b_Write _ => true
  | .chute4a_Write _ => true
  | .chute4b_Write _ => true
  | _ => false

/-- The output lines and compare registers driven by `compRxEventHandler`; each holds the
value last written to it. -/
structure Lines where
  PWM_Drive_Compare1 : Nat
  leftWheelDir : Nat
  PWM_Drive_Compare2 : Nat
  rightWheelDir : Nat
  hand_a : Nat
  hand_b : Nat
  hand_en : Nat
  chute1a : Nat
  chute1b : Nat
  chute2a : Nat
  chute2b : Nat
  chute3a : Nat
  chute3b : Nat
  chute4a : Nat
  chute4b : Nat
  PWM_BoxLid_Compare : Nat
  deriving DecidableEq, Repr

/-- All lines low and all compare registers zero. -/
def linesLow : Lines := ⟨0, 0, 0, 0, 0, 0, 0, 0, 0, 0, 0, 0, 0, 0, 0, 0⟩

/-- Effect of one driver call on the lines: a `*_Write` or `*_WriteCompare*` call stores
its argument, the other calls leave the lines as they are. -/
def Lines.write (l : Lines) : Out → Lines
  | .PWM_Drive_WriteCompare1 v => { l with PWM_Drive_Compare1 := v }
  | .leftWheelDir_Write v => { l with leftWheelDir := v }
  | .PWM_Drive_WriteCompare2 v => { l with PWM_Drive_Compare2 := v }
  | .rightWheelDir_Write v => { l with rightWheelDir := v }
  | .hand_a_Write v => { l with hand_a := v }
  | .hand_b_Write v => { l with hand_b := v }
  | .hand_en_Write v => { l with hand_en := v }
  | .chute1a_Write v => { l with chute1a := v }
  | .chute1b_Write v => { l with chute1b := v }
  | .chute2a_Write v => { l with chute2a := v }
  | .chute2b_Write v => { l with chute2b := v }
  | .chute3a_Write v => { l with chute3a := v }
  | .chute3b_Write v => { l with chute3b := v }
  | .chute4a_Write v => { l with chute4a := v }
  | .chute4b_Write v => { l with chute4b := v }
  | .PWM_BoxLid_WriteCompare v => { l with PWM_BoxLid_Compare := v }
  | .pololuControl_driveMotor _ _ => l
  | .UART_Computer_PutArray _ => l
  | .UART_ScienceMCU_PutChar _ => l
  | .pololuControl_readVariable _ _ => l

/-- The lines after a sequence of driver calls. -/
def Lines.run (l : Lines) : List Out → Lines
  | [] => l
  | o :: os => Lines.run (l.write o) os

/-- The lines after each single driver call of a sequence, in order. -/
def Lines.afterEach (l : Lines) : List Out → List Lines
  | [] => []
  | o :: os => l.write o :: Lines.afterEach (l.write o) os

/-- The driver calls of successive `driveHand` calls, one per command value. -/
def driveHandCalls : List Nat → List Out
  | [] => []
  | c :: cs => driveHand c ++ driveHandCalls cs

/-- The invariant of the statics of `updateShoulderPos`, `updateElbowPos` and
`updateForearmPos`: whenever the cursor is `high` the accumulator holds one byte. -/
def PosStatics.lowByteHeld (st : PosStatics) : Prop := st.state = .high → st.temp ≤ 255

instance (st : PosStatics) : Decidable st.lowByteHeld := by
  unfold PosStatics.lowByteHeld
  infer_instance

/-- Successive calls of `scienceEventHandler`, one per chunk of arriving words: each call
finds in the buffer what the previous call left there (after a transport error) followed by
the new chunk. Returns the final statics and published readings. -/
def scienceFeed (st : ScienceStatics) (g : Readings) (pending : List Nat) :
    List (List Nat) → ScienceStatics × Readings
  | [] => (st, g)
  | c :: cs =>
    scienceFeed (scienceEventHandler st g (pending ++ c)).st
      (scienceEventHandler st g (pending ++ c)).g
      (scienceEventHandler st g (pending ++ c)).rx cs

/-! ## Lemmas on bit operations -/

/-- Masking with `0xff` keeps the low byte. -/
theorem and_ff (x : Nat) : x &&& 0xff = x % 256 :=
  Nat.and_pow_two_sub_one_eq_mod x 8

/-- Masking with `0xff00` keeps the second byte, in place. -/
theorem and_ff00 (x : Nat) : x &&& 0xff00 = 256 * ((x / 256) % 256) := by
  apply Nat.eq_of_testBit_eq
  intro i
  have h1 : (0xff00 : Nat) = 2 ^ 8 * (2 ^ 8 - 1) := by norm_num
  have h2 : (256 : Nat) = 2 ^ 8 := by norm_num
  rw [Nat.testBit_and, h1, h2, Nat.testBit_mul_pow_two, Nat.testBit_mul_pow_two,
    Nat.testBit_two_pow_sub_one, Nat.testBit_mod_two_pow, ← Nat.shiftRight_eq_div_pow,
    Nat.testBit_shiftRight]
  by_cases hi : 8 ≤ i
  · have h3 : 8 + (i - 8) = i := by omega
    simp [hi, h3, Bool.and_comm]
  · simp [hi]

/-- Symmetric form of `and_ff00`. -/
theorem ff00_and (x : Nat) : 0xff00 &&& x = 256 * ((x / 256) % 256) := by
  rw [Nat.and_comm, and_ff00]

/-- A low byte OR-ed with a multiple of 256 is their sum. -/
theorem or_mul_256 (a b : Nat) (h : a < 256) : a ||| (256 * b) = a + 256 * b := by
  have h2 : (256 : Nat) = 2 ^ 8 := by norm_num
  rw [Nat.or_comm, h2, ← Nat.mul_add_lt_is_or (by simpa using h)]
  omega

/-- Little-endian assembly `lo | (hi << 8)` of two bytes. -/
theorem or_shl8 (lo hi : Nat) (h : lo < 256) : lo ||| (hi <<< 8) = lo + 256 * hi := by
  rw [Nat.shiftLeft_eq, Nat.mul_comm, ← or_mul_256 lo hi h]

/-- Little-endian assembly `lo | ((w << 8) & 0xff00)`: the data byte of `w` becomes the
high byte. -/
theorem or_shl8_masked (lo w : Nat) (h : lo < 256) :
    lo ||| ((w <<< 8) &&& 0xff00) = lo + 256 * (w % 256) := by
  rw [and_ff00, Nat.shiftLeft_eq, or_mul_256 lo _ h]
  have h3 : w * 2 ^ 8 / 256 = w := by omega
  rw [h3]

/-- A word with a zero status byte passes the test `data & 0xff00`. -/
theorem clean_status (b : Nat) (hb : b < 256) : (b % 65536) &&& 0xff00 = 0 := by
  rw [and_ff00]
  omega

/-- A word with a zero status byte is its own data byte. -/
theorem clean_data (b : Nat) (hb : b < 256) : ((b % 65536) &&& 0xff) % 256 = b := by
  rw [and_ff]
  omega

/-! ## Lemmas on `compRxEventHandler` -/

/-- One loop iteration on a word with zero status. -/
theorem compRxLoop_cons_clean (s : CompRx) (b : Nat) (hb : b < 256) (rest : List Nat) :
    compRxLoop s (b :: rest) =
      ⟨(compRxLoop (compRxSwitch { s with data := b, byte := b }).1 rest).st,
       (compRxSwitch { s with data := b, byte := b }).2 ++
         (compRxLoop (compRxSwitch { s with data := b, byte := b }).1 rest).out,
       (compRxLoop (compRxSwitch { s with data := b, byte := b }).1 rest).rx,
       (compRxLoop (compRxSwitch { s with data := b, byte := b }).1 rest).ret⟩ := by
  have h1 : b % 65536 = b := by omega
  have h2 := clean_status b hb
  have h3 := clean_data b hb
  rw [h1] at h2 h3
  simp only [compRxLoop, h1, h2, h3, ne_eq, not_true_eq_false, if_false]

/-- The loop over a buffer of zero-status words followed by more words is the loop over
the first part followed by the loop over the rest. -/
theorem compRxLoop_append (ws vs : List Nat) (hws : ∀ b ∈ ws, b < 256) (s : CompRx) :
    compRxLoop s (ws ++ vs) =
      ⟨(compRxLoop (compRxLoop s ws).st vs).st,
       (compRxLoop s ws).out ++ (compRxLoop (compRxLoop s ws).st vs).out,
       (compRxLoop (compRxLoop s ws).st vs).rx,
       (compRxLoop (compRxLoop s ws).st vs).ret⟩ := by
  induction ws generalizing s with
  | nil => simp [compRxLoop]
  | cons b ws ih =>
    have hb : b < 256 := hws b (List.mem_cons_self _ _)
    have hws2 : ∀ c ∈ ws, c < 256 := fun c hc => hws c (List.mem_cons_of_mem _ hc)
    rw [List.cons_append, compRxLoop_cons_clean s b hb, compRxLoop_cons_clean s b hb,
      ih hws2]
    simp [List.append_assoc]

/-- The loop empties a buffer of zero-status words and leaves by its exit condition. -/
theorem compRxLoop_clean (ws : List Nat) (hws : ∀ b ∈ ws, b < 256) (s : CompRx) :
    (compRxLoop s ws).rx = [] ∧ (compRxLoop s ws).ret = none := by
  induction ws generalizing s with
  | nil => simp [compRxLoop]
  | cons b ws ih =>
    have hb : b < 256 := hws b (List.mem_cons_self _ _)
    have hws2 : ∀ c ∈ ws, c < 256 := fun c hc => hws c (List.mem_cons_of_mem _ hc)
    rw [compRxLoop_cons_clean s b hb]
    exact ih hws2 _

/-- On a buffer of zero-status words `compRxEventHandler` is its loop, returns `SUCCESS`
and leaves the buffer empty. -/
theorem compRxEventHandler_clean (ws : List Nat) (hws : ∀ b ∈ ws, b < 256) (s : CompRx) :
    compRxEventHandler s ws =
      ⟨(compRxLoop s ws).st, (compRxLoop s ws).out, [], SUCCESS⟩ := by
  obtain ⟨h1, h2⟩ := compRxLoop_clean ws hws s
  simp [compRxEventHandler, h1, h2]

/-- Feeding zero-status words chunk by chunk is the loop over their concatenation. -/
theorem compRxFeed_clean (chunks : List (List Nat)) (h : ∀ c ∈ chunks, ∀ b ∈ c, b < 256)
    (s : CompRx) :
    compRxFeed s [] chunks =
      ((compRxLoop s chunks.flatten).st, (compRxLoop s chunks.flatten).out) := by
  induction chunks generalizing s with
  | nil => simp [compRxFeed, compRxLoop]
  | cons c cs ih =>
    have hc : ∀ b ∈ c, b < 256 := h c (List.mem_cons_self _ _)
    have hcs : ∀ d ∈ cs, ∀ b ∈ d, b < 256 := fun d hd => h d (List.mem_cons_of_mem _ hd)
    rw [compRxFeed, List.nil_append, compRxEventHandler_clean c hc]
    simp only [List.flatten_cons]
    rw [ih hcs, compRxLoop_append c cs.flatten hc]

/-- One loop iteration on a word with zero status, in a form that keeps terms small. -/
theorem compRxLoop_cons_after (s : CompRx) (b : Nat) (hb : b < 256) (rest : List Nat) :
    compRxLoop s (b :: rest) =
      CompRxLoop.after (compRxSwitch { s with data := b, byte := b }).2
        (compRxLoop (compRxSwitch { s with data := b, byte := b }).1 rest) := by
  rw [compRxLoop_cons_clean s b hb]
  rfl

/-- Two bytes assembled by `lo | (hi << 8)` in a `uint16_t`. -/
theorem assemble16 (lo hi : Nat) (hlo : lo < 256) (hhi : hi < 256) :
    (lo ||| (hi <<< 8)) % 65536 = lo + 256 * hi := by
  rw [or_shl8 lo hi hlo]
  omega

/-- The loop over one well-formed frame, from the preamble state. -/
theorem compRxLoop_frame (s : CompRx) (f : CommandFrame) (hs : s.compRxState = .pre0)
    (hf : f.wellFormed) :
    compRxLoop s f.words =
      ⟨{ compRxState := .pre0, Payload := payloadAfter s.Payload f, data := f.chutes,
         byte := f.chutes, events := s.events }, routerCalls f, [], none⟩ := by
  obtain ⟨c, p, d, b, e⟩ := s
  simp only at hs
  subst hs
  simp only [CommandFrame.wellFormed, CommandFrame.fields, List.mem_cons, List.mem_singleton,
    forall_eq_or_imp, forall_eq, List.not_mem_nil, false_implies, implies_true, and_true] at hf
  obtain ⟨h1, h2, h3, h4, h5, h6, h7, h8, h9, h10, h11, h12, h13, h14, h15, h16⟩ := hf
  have h0 : PREAMBLE0 < 256 := by decide
  have hnil : ∀ s : CompRx, compRxLoop s [] = ⟨s, [], [], none⟩ := fun _ => rfl
  simp only [CommandFrame.words, CommandFrame.fields]
  simp only [compRxLoop_cons_after, h0, h1, h2, h3, h4, h5, h6, h7, h8, h9, h10, h11, h12,
    h13, h14, h15, h16, compRxSwitch, if_true, hnil, CompRxLoop.after, assemble16]
  simp [routerCalls, payloadAfter]

/-- One call of `compRxEventHandler` on one well-formed frame, from the preamble state. -/
theorem compRxEventHandler_frame (s : CompRx) (f : CommandFrame)
    (hs : s.compRxState = .pre0) (hf : f.wellFormed) :
    compRxEventHandler s f.words =
      ⟨{ compRxState := .pre0, Payload := payloadAfter s.Payload f, data := f.chutes,
         byte := f.chutes, events := s.events }, routerCalls f, [], SUCCESS⟩ := by
  simp [compRxEventHandler, compRxLoop_frame s f hs hf]

/-- The words of a well-formed frame have a zero status byte. -/
theorem CommandFrame.words_clean (f : CommandFrame) (hf : f.wellFormed) :
    ∀ b ∈ f.words, b < 256 := by
  intro b hb
  rcases List.mem_cons.mp hb with h | h
  · rw [h]; decide
  · exact hf b h

/-- The chunks of a split of zero-status words hold zero-status words. -/
theorem chunks_clean (ws : List Nat) (chunks : List (List Nat)) (hws : ∀ b ∈ ws, b < 256)
    (hsplit : chunks.flatten = ws) : ∀ c ∈ chunks, ∀ b ∈ c, b < 256 := by
  intro c hc b hb
  apply hws
  rw [← hsplit]
  exact List.mem_flatten.mpr ⟨c, hc, hb⟩

/-- One call of `compRxEventHandler` on a single zero-status word. -/
theorem compRxEventHandler_single (s : CompRx) (b : Nat) (hb : b < 256) :
    compRxEventHandler s [b] =
      ⟨(compRxSwitch { s with data := b, byte := b }).1,
       (compRxSwitch { s with data := b, byte := b }).2, [], SUCCESS⟩ := by
  have hclean : ∀ c ∈ [b], c < 256 := by
    intro c hc
    rw [List.mem_singleton.mp hc]
    exact hb
  rw [compRxEventHandler_clean [b] hclean, compRxLoop_cons_clean s b hb]
  simp [compRxLoop]

/-- Sixteen bytes are the fields of a command frame. -/
theorem exists_frame (fields : List Nat) (hlen : fields.length = 16) :
    ∃ f : CommandFrame, f.fields = fields := by
  refine ⟨⟨fields.getD 0 0, fields.getD 1 0, fields.getD 2 0, fields.getD 3 0,
    fields.getD 4 0, fields.getD 5 0, fields.getD 6 0, fields.getD 7 0, fields.getD 8 0,
    fields.getD 9 0, fields.getD 10 0, fields.getD 11 0, fields.getD 12 0, fields.getD 13 0,
    fields.getD 14 0, fields.getD 15 0⟩, ?_⟩
  apply List.ext_getElem
  · simp [CommandFrame.fields, hlen]
  · intro i h1 h2
    have hi : i < 16 := by omega
    interval_cases i <;>
      simp [CommandFrame.fields, List.getD_eq_getElem?_getD, List.getElem?_eq_getElem, hlen]

/-- A list of non-empty chunks has no more chunks than words. -/
theorem length_le_flatten_length (chunks : List (List Nat)) (hne : ∀ c ∈ chunks, c ≠ []) :
    chunks.length ≤ chunks.flatten.length := by
  induction chunks with
  | nil => simp
  | cons c cs ih =>
    have hc : c ≠ [] := hne c (List.mem_cons_self _ _)
    have hcs : ∀ d ∈ cs, d ≠ [] := fun d hd => hne d (List.mem_cons_of_mem _ hd)
    have hpos : 0 < c.length := List.length_pos.mpr hc
    have ih2 := ih hcs
    simp only [List.flatten_cons, List.length_append, List.length_cons]
    omega

/-! ## Lemmas on the position and science decoders -/

/-- Two bytes assembled by `lo | ((w << 8) & 0xff00)` in a `uint16_t`. -/
theorem assemble16_masked (lo w : Nat) (hlo : lo < 256) :
    (lo ||| ((w <<< 8) &&& 0xff00)) % 65536 = lo + 256 * (w % 256) := by
  rw [or_shl8_masked lo w hlo]
  omega

/-- Two bytes assembled by `lo | (0xff00 & (w << 8))` in a `uint16_t`. -/
theorem assemble16_masked_left (lo w : Nat) (hlo : lo < 256) :
    (lo ||| (0xff00 &&& (w <<< 8))) % 65536 = lo + 256 * (w % 256) := by
  rw [Nat.and_comm, assemble16_masked lo w hlo]

/-- A 16-bit pattern below `32768` is its own `int16_t` value. -/
theorem toInt16_small (n : Nat) (h : n < 32768) : toInt16 n = (n : Int) := by
  have h1 : n % 65536 = n := by omega
  simp [toInt16, h1, h]

/-- One loop iteration of `scienceEventHandler` on a word with zero status. -/
theorem scienceEventHandler_cons_clean (st : ScienceStatics) (g : Readings) (b : Nat)
    (hb : b < 256) (rest : List Nat) :
    scienceEventHandler st g (b :: rest) =
      scienceEventHandler (scienceSwitch st g b).1 (scienceSwitch st g b).2 rest := by
  have h1 : b % 65536 = b := by omega
  have h2 := clean_status b hb
  rw [h1] at h2
  simp only [scienceEventHandler, h1, h2, ne_eq, not_true_eq_false, if_false]

/-- A well-formed science frame fed to `scienceEventHandler` in the first-preamble state:
the temperature is committed when it is at most `100`, the humidity when the humidity
published before is at most `1023`, and the cursor is back at the first-preamble state. -/
theorem scienceEventHandler_frame_from_pre0 (st : ScienceStatics) (g : Readings)
    (tl th hl hh : Nat) (hst : st.state = .pre0) (htl : tl < 256) (hth : th < 256)
    (hhl : hl < 256) (hhh : hh < 256) :
    scienceEventHandler st g [0xFF, 0x9E, tl, th, hl, hh] =
      ⟨{ state := .pre0, temp := hl + 256 * hh },
       { g with
         temperature := if tl + 256 * th ≤ 100 then ((tl + 256 * th : Nat) : Int)
           else g.temperature
         humidity := if g.humidity ≤ 1023 then toInt16 (hl + 256 * hh) else g.humidity },
       []⟩ := by
  obtain ⟨c, t⟩ := st
  simp only at hst
  subst hst
  have e1 : tl % 65536 = tl := by omega
  have e2 : hl % 65536 = hl := by omega
  have e3 : th % 256 = th := by omega
  have e4 : hh % 256 = hh := by omega
  rw [scienceEventHandler_cons_clean _ _ _ (by decide), scienceEventHandler_cons_clean _ _ _ (by decide),
    scienceEventHandler_cons_clean _ _ _ htl, scienceEventHandler_cons_clean _ _ _ hth,
    scienceEventHandler_cons_clean _ _ _ hhl, scienceEventHandler_cons_clean _ _ _ hhh]
  simp only [scienceSwitch, if_true, e1, e2, assemble16_masked_left _ _ htl,
    assemble16_masked_left _ _ hhl, e3, e4, scienceEventHandler]
  by_cases ht : tl + 256 * th ≤ 100
  · have ht2 : tl + 256 * th < 32768 := by omega
    by_cases hh2 : g.humidity ≤ 1023 <;> simp [ht, hh2, toInt16_small _ ht2]
  · by_cases hh2 : g.humidity ≤ 1023 <;> simp [ht, hh2]

/-- The function `updateForearmPos` on a byte pair from the `low` state: the assembled value
is published whatever it is. -/
theorem updateForearmPos_pair (st : PosStatics) (g : Readings) (lo hi : Nat)
    (hst : st.state = .low) (hlo : lo < 256) (hhi : hi < 256) :
    updateForearmPos st g [lo, hi] =
      ⟨{ state := .low, temp := lo + 256 * hi }, { g with forearmPos := lo + 256 * hi }, [],
        2⟩ := by
  have e1 : lo % 65536 = lo := by omega
  have e2 : hi % 65536 = hi := by omega
  have e3 : lo % 256 = lo := by omega
  have e4 : hi % 256 = hi := by omega
  have e5 : lo ≤ 4095 := by omega
  simp [updateForearmPos, updateForearmPosLoop, hst, and_ff, e1, e2, e3, e4, e5,
    assemble16_masked lo hi hlo]

/-! ## Lemmas on `feedbackToOnboardComputer` -/

/-- Masking an `int` with `0xff` keeps the low byte of its two's complement pattern. -/
theorem int_land_ff (x : Int) : Int.land x 0xff = x % 256 := by
  cases x with
  | ofNat n =>
    show Int.ofNat (n &&& 255) = _
    rw [and_ff]
    rfl
  | negSucc m =>
    show Int.ofNat (Nat.ldiff 255 m) = _
    rw [Int.negSucc_emod m (by norm_num)]
    have h : Nat.ldiff 255 m = 2 ^ 8 - (m % 2 ^ 8 + 1) := by
      apply Nat.eq_of_testBit_eq
      intro i
      rw [Nat.testBit_ldiff, Nat.testBit_two_pow_sub_succ (Nat.mod_lt _ (by norm_num)),
        Nat.testBit_mod_two_pow]
      have h255 : Nat.testBit 255 i = decide (i < 8) := by
        have h8 := Nat.testBit_two_pow_sub_one 8 i
        simpa using h8
      rw [h255]
      by_cases hi : i < 8 <;> simp [hi]
    rw [h]
    have hlt := Nat.mod_lt m (show 0 < 2 ^ 8 by norm_num)
    simp only [Int.ofNat_eq_coe]
    omega

/-- The low byte `x & 0xff` of a `uint16_t`, stored in a `uint8_t`. -/
theorem lowByte_nat (x : Nat) : (x &&& 0xff) % 256 = x % 256 := by
  rw [and_ff]
  omega

/-- The shift `x >> 8` of a `uint16_t`. -/
theorem shr8_nat (x : Nat) : x >>> 8 = x / 256 := by
  rw [Nat.shiftRight_eq_div_pow]

/-- The low byte `x & 0xff` of an `int16_t`, stored in a `uint8_t`. -/
theorem lowByte_int (x : Int) : (Int.land x 0xff).toNat % 256 = (x % 256).toNat := by
  rw [int_land_ff]
  omega

/-- The arithmetic shift `x >> 8` of an `int16_t` promoted to `int`. -/
theorem shr8_int (x : Int) : x >>> (8 : Nat) = x / 256 := by
  rw [Int.shiftRight_eq_div_pow]
  norm_num

/-! ## Lemmas on resynchronisation, transport errors and garbage -/

/-- A single-bit mask keeps that bit, in place. -/
theorem and_two_pow (x i : Nat) : x &&& 2 ^ i = 2 ^ i * (x / 2 ^ i % 2) := by
  apply Nat.eq_of_testBit_eq
  intro j
  have h2 : x / 2 ^ i % 2 = (x >>> i) % 2 ^ 1 := by
    rw [Nat.shiftRight_eq_div_pow]
    norm_num
  rw [Nat.testBit_and, Nat.testBit_two_pow, Nat.testBit_mul_pow_two, h2,
    Nat.testBit_mod_two_pow, Nat.testBit_shiftRight]
  by_cases hij : i = j
  · subst hij
    simp
  · by_cases hle : i ≤ j
    · have h3 : ¬ (j - i < 1) := by omega
      simp [hij, h3]
    · simp [hij, hle]

/-- The test `byte & 0x40` sees bit 6. -/
theorem and_0x40_ne_zero (b : Nat) : b &&& 0x40 ≠ 0 ↔ b / 64 % 2 = 1 := by
  have h := and_two_pow b 6
  norm_num at h
  rw [h]
  omega

/-- The test `byte & 0x80` sees bit 7. -/
theorem and_0x80_ne_zero (b : Nat) : b &&& 0x80 ≠ 0 ↔ b / 128 % 2 = 1 := by
  have h := and_two_pow b 7
  norm_num at h
  rw [h]
  omega

/-- The test `byte & 0x1` sees bit 0. -/
theorem and_0x1_ne_zero (b : Nat) : b &&& 0x1 ≠ 0 ↔ b % 2 = 1 := by
  rw [Nat.and_one_is_mod]
  omega

/-- The test `byte & 0x2` sees bit 1. -/
theorem and_0x2_ne_zero (b : Nat) : b &&& 0x2 ≠ 0 ↔ b / 2 % 2 = 1 := by
  have h := and_two_pow b 1
  norm_num at h
  rw [h]
  omega

/-- The test `byte & 0x4` sees bit 2. -/
theorem and_0x4_ne_zero (b : Nat) : b &&& 0x4 ≠ 0 ↔ b / 4 % 2 = 1 := by
  have h := and_two_pow b 2
  norm_num at h
  rw [h]
  omega

/-- The test `byte & 0x8` sees bit 3. -/
theorem and_0x8_ne_zero (b : Nat) : b &&& 0x8 ≠ 0 ↔ b / 8 % 2 = 1 := by
  have h := and_two_pow b 3
  norm_num at h
  rw [h]
  omega

/-- A word with a non-zero status byte fails the test `data & 0xff00`. -/
theorem faulty_status (w : Nat) (h1 : 256 ≤ w) (h2 : w < 65536) :
    (w % 65536) &&& 0xff00 ≠ 0 := by
  rw [and_ff00]
  omega

/-- One loop iteration on a word with a non-zero status byte: the word is taken from the
buffer and stored in `data`, nothing else happens and the handler returns
`UART_READ_ERROR`. -/
theorem compRxLoop_cons_faulty (s : CompRx) (w : Nat) (h1 : 256 ≤ w) (h2 : w < 65536)
    (rest : List Nat) :
    compRxLoop s (w :: rest) = ⟨{ s with data := w }, [], rest, some UART_READ_ERROR⟩ := by
  have h3 := faulty_status w h1 h2
  have h4 : w % 65536 = w := by omega
  rw [h4] at h3
  simp only [compRxLoop, h4, ne_eq, h3, not_false_eq_true, if_true]

/-- The `switch` never writes the `Payload` members `leftWheelsDir`, `rightWheelsDir` and
`chutes`, nor `events`. -/
theorem compRxSwitch_untouched (s : CompRx) :
    (compRxSwitch s).1.Payload.leftWheelsDir = s.Payload.leftWheelsDir ∧
    (compRxSwitch s).1.Payload.rightWheelsDir = s.Payload.rightWheelsDir ∧
    (compRxSwitch s).1.Payload.chutes = s.Payload.chutes ∧
    (compRxSwitch s).1.events = s.events := by
  obtain ⟨c, p, d, b, e⟩ := s
  cases c <;> simp only [compRxSwitch] <;> (try split) <;> simp

/-- The loop over zero-status words never writes `leftWheelsDir`, `rightWheelsDir`,
`chutes` of `Payload`, nor `events`. -/
theorem compRxLoop_untouched (ws : List Nat) (hws : ∀ b ∈ ws, b < 256) (s : CompRx) :
    (compRxLoop s ws).st.Payload.leftWheelsDir = s.Payload.leftWheelsDir ∧
    (compRxLoop s ws).st.Payload.rightWheelsDir = s.Payload.rightWheelsDir ∧
    (compRxLoop s ws).st.Payload.chutes = s.Payload.chutes ∧
    (compRxLoop s ws).st.events = s.events := by
  induction ws generalizing s with
  | nil => simp [compRxLoop]
  | cons b ws ih =>
    have hb : b < 256 := hws b (List.mem_cons_self _ _)
    have hws2 : ∀ c ∈ ws, c < 256 := fun c hc => hws c (List.mem_cons_of_mem _ hc)
    rw [compRxLoop_cons_clean s b hb]
    obtain ⟨h1, h2, h3, h4⟩ := ih hws2 (compRxSwitch { s with data := b, byte := b }).1
    obtain ⟨k1, k2, k3, k4⟩ := compRxSwitch_untouched { s with data := b, byte := b }
    exact ⟨h1.trans k1, h2.trans k2, h3.trans k3, h4.trans k4⟩

/-- Outside `pre0` one byte brings the cursor one state closer to `pre0`. -/
theorem compRxSwitch_bytesToPreamble (s : CompRx) (hs : s.compRxState ≠ .pre0) :
    bytesToPreamble (compRxSwitch s).1.compRxState + 1 = bytesToPreamble s.compRxState := by
  obtain ⟨c, p, d, b, e⟩ := s
  cases c <;> first | exact absurd rfl hs | rfl

/-- From any cursor state, `bytesToPreamble` zero-status words bring the cursor to
`pre0`. -/
theorem compRxLoop_to_preamble (ws : List Nat) (hws : ∀ b ∈ ws, b < 256) (s : CompRx)
    (hlen : ws.length = bytesToPreamble s.compRxState) :
    (compRxLoop s ws).st.compRxState = .pre0 := by
  induction ws generalizing s with
  | nil =>
    obtain ⟨c, p, d, b, e⟩ := s
    cases c <;> first | rfl | (simp [bytesToPreamble] at hlen)
  | cons b ws ih =>
    have hb : b < 256 := hws b (List.mem_cons_self _ _)
    have hws2 : ∀ c ∈ ws, c < 256 := fun c hc => hws c (List.mem_cons_of_mem _ hc)
    have hne : ({ s with data := b, byte := b } : CompRx).compRxState ≠ .pre0 := by
      intro h0
      have h1 : s.compRxState = .pre0 := h0
      rw [h1] at hlen
      simp [bytesToPreamble] at hlen
    have hstep := compRxSwitch_bytesToPreamble { s with data := b, byte := b } hne
    rw [compRxLoop_cons_clean s b hb]
    apply ih hws2
    have h2 : ({ s with data := b, byte := b } : CompRx).compRxState = s.compRxState := rfl
    rw [h2] at hstep
    simp only [List.length_cons] at hlen
    omega

/-- Two payloads that agree on the members no frame writes are equal after a frame. -/
theorem payloadAfter_congr (p q : Payload) (f : CommandFrame)
    (h1 : p.leftWheelsDir = q.leftWheelsDir) (h2 : p.rightWheelsDir = q.rightWheelsDir)
    (h3 : p.chutes = q.chutes) : payloadAfter p f = payloadAfter q f := by
  simp [payloadAfter, h1, h2, h3]

/-- In `pre0` a zero-status byte other than `0xEA` changes only `data` and `byte`. -/
theorem compRxLoop_garbage (ws : List Nat) (hws : ∀ b ∈ ws, b < 256 ∧ b ≠ PREAMBLE0)
    (s : CompRx) (hs : s.compRxState = .pre0) :
    (compRxLoop s ws).st.compRxState = .pre0 ∧ (compRxLoop s ws).st.Payload = s.Payload ∧
    (compRxLoop s ws).st.events = s.events ∧ (compRxLoop s ws).out = [] := by
  induction ws generalizing s with
  | nil => simp [compRxLoop, hs]
  | cons b ws ih =>
    have hb := hws b (List.mem_cons_self _ _)
    have hws2 : ∀ c ∈ ws, c < 256 ∧ c ≠ PREAMBLE0 :=
      fun c hc => hws c (List.mem_cons_of_mem _ hc)
    have hsw : compRxSwitch { s with data := b, byte := b } =
        ({ s with data := b, byte := b }, []) := by
      simp [compRxSwitch, hs, hb.2]
    rw [compRxLoop_cons_clean s b hb.1, hsw]
    obtain ⟨h1, h2, h3, h4⟩ := ih hws2 { s with data := b, byte := b } hs
    exact ⟨h1, h2, h3, by simp [h4]⟩

/-- The calls of `driveHand` forward no 16-bit field. -/
theorem driveHand_filter_is16BitField (c : Nat) :
    (driveHand c).filter Out.is16BitField = [] := by
  unfold driveHand
  split_ifs <;> rfl

/-- The calls of `control_chutes` forward no 16-bit field. -/
theorem control_chutes_filter_is16BitField (b : Nat) :
    (control_chutes b).filter Out.is16BitField = [] := by
  unfold control_chutes
  split_ifs <;> rfl

/-! ## Lemmas on the output lines -/

/-- The lines after two sequences of driver calls run one after the other. -/
theorem Lines.run_append (l : Lines) (a b : List Out) :
    l.run (a ++ b) = (l.run a).run b := by
  induction a generalizing l with
  | nil => rfl
  | cons o os ih => exact ih (l.write o)

/-- The calls of `control_chutes`, with its four tests read as bits 0 to 3 of the byte. -/
theorem control_chutes_bits (b : Nat) :
    control_chutes b =
      (if b % 2 = 1 then [Out.chute1b_Write 0, Out.chute1a_Write 1]
       else [Out.chute1a_Write 0, Out.chute1b_Write 1]) ++
      (if b / 2 % 2 = 1 then [Out.chute2b_Write 0, Out.chute2a_Write 1]
       else [Out.chute2a_Write 0, Out.chute2b_Write 1]) ++
      (if b / 4 % 2 = 1 then [Out.chute3b_Write 0, Out.chute3a_Write 1]
       else [Out.chute3a_Write 0, Out.chute3b_Write 1]) ++
      (if b / 8 % 2 = 1 then [Out.chute4b_Write 0, Out.chute4a_Write 1]
       else [Out.chute4a_Write 0, Out.chute4b_Write 1]) := by
  simp only [control_chutes, and_0x1_ne_zero, and_0x2_ne_zero, and_0x4_ne_zero,
    and_0x8_ne_zero]

/-- The lines after `control_chutes`: for each chute, line `a` carries its bit of the byte
and line `b` the complement; no other line changes. -/
theorem control_chutes_lines (l : Lines) (b : Nat) :
    l.run (control_chutes b) =
      { l with
        chute1a := b % 2, chute1b := 1 - b % 2,
        chute2a := b / 2 % 2, chute2b := 1 - b / 2 % 2,
        chute3a := b / 4 % 2, chute3b := 1 - b / 4 % 2,
        chute4a := b / 8 % 2, chute4b := 1 - b / 8 % 2 } := by
  rw [control_chutes_bits]
  rcases Nat.mod_two_eq_zero_or_one b with h0 | h0 <;>
  rcases Nat.mod_two_eq_zero_or_one (b / 2) with h1 | h1 <;>
  rcases Nat.mod_two_eq_zero_or_one (b / 4) with h2 | h2 <;>
  rcases Nat.mod_two_eq_zero_or_one (b / 8) with h3 | h3 <;>
  simp [h0, h1, h2, h3, Lines.run, Lines.write]

/-- The calls of `control_chutes` are eight writes of chute lines. -/
theorem control_chutes_filter_isChuteWrite (b : Nat) :
    (control_chutes b).filter Out.isChuteWrite = control_chutes b ∧
    (control_chutes b).length = 8 := by
  unfold control_chutes
  split_ifs <;> exact ⟨rfl, rfl⟩

/-- The driver calls for a byte consumed in the `chutes` state, with the tests of bit 6 and
bit 7 read arithmetically. -/
theorem compRxEventHandler_chutes (s : CompRx) (b : Nat) (hs : s.compRxState = .chutes)
    (hb : b < 256) :
    compRxEventHandler s [b] =
      ⟨{ s with data := b, byte := b, compRxState := .pre0 },
       (if b / 64 % 2 = 1 then control_chutes b else []) ++
         [Out.PWM_BoxLid_WriteCompare (if b / 128 % 2 = 1 then SERVO_MIN else SERVO_MAX)],
       [], SUCCESS⟩ := by
  rw [compRxEventHandler_single s b hb]
  simp only [compRxSwitch, hs, and_0x40_ne_zero, and_0x80_ne_zero]
  by_cases h7 : b / 128 % 2 = 1 <;> simp [h7]

/-- In `control_chutes` the line to lower is written before the line to raise: if the two
lines of a chute are not both high before the call, they are not both high after any of
its writes (for chute 1, written first, whatever the lines were before). -/
theorem control_chutes_break_before_make (l : Lines) (b : Nat)
    (h2 : ¬ (l.chute2a = 1 ∧ l.chute2b = 1))
    (h3 : ¬ (l.chute3a = 1 ∧ l.chute3b = 1)) (h4 : ¬ (l.chute4a = 1 ∧ l.chute4b = 1)) :
    ∀ m ∈ l.afterEach (control_chutes b),
      ¬ (m.chute1a = 1 ∧ m.chute1b = 1) ∧ ¬ (m.chute2a = 1 ∧ m.chute2b = 1) ∧
      ¬ (m.chute3a = 1 ∧ m.chute3b = 1) ∧ ¬ (m.chute4a = 1 ∧ m.chute4b = 1) := by
  rw [control_chutes_bits]
  intro m hm
  rcases Nat.mod_two_eq_zero_or_one b with k0 | k0 <;>
  rcases Nat.mod_two_eq_zero_or_one (b / 2) with k1 | k1 <;>
  rcases Nat.mod_two_eq_zero_or_one (b / 4) with k2 | k2 <;>
  rcases Nat.mod_two_eq_zero_or_one (b / 8) with k3 | k3 <;>
  · simp only [k0, k1, k2, k3, if_true, if_false, Nat.zero_ne_one, List.cons_append,
      List.nil_append, Lines.afterEach, Lines.write, List.mem_cons, List.not_mem_nil,
      or_false] at hm
    rcases hm with h | h | h | h | h | h | h | h <;> subst h <;> simp_all

/-! ## Lemmas on the shoulder, elbow and forearm decoders -/

/-- The function `updateShoulderPos` on a byte pair from the `low` state: the assembled
value is published whatever it is. -/
theorem updateShoulderPos_pair (st : PosStatics) (g : Readings) (lo hi : Nat)
    (hst : st.state = .low) (hlo : lo < 256) (hhi : hi < 256) :
    updateShoulderPos st g [lo, hi] =
      ⟨{ state := .low, temp := lo + 256 * hi }, { g with shoulderPos := lo + 256 * hi }, [],
        2⟩ := by
  have e1 : lo % 65536 = lo := by omega
  have e2 : hi % 65536 = hi := by omega
  have e3 : lo % 256 = lo := by omega
  have e4 : hi % 256 = hi := by omega
  have e5 : lo ≤ 4095 := by omega
  simp [updateShoulderPos, updateShoulderPosLoop, hst, and_ff, e1, e2, e3, e4, e5,
    assemble16_masked lo hi hlo]

/-- The function `updateElbowPos` on a byte pair from the `low` state: the assembled value
is published whatever it is. -/
theorem updateElbowPos_pair (st : PosStatics) (g : Readings) (lo hi : Nat)
    (hst : st.state = .low) (hlo : lo < 256) (hhi : hi < 256) :
    updateElbowPos st g [lo, hi] =
      ⟨{ state := .low, temp := lo + 256 * hi }, { g with elbowPos := lo + 256 * hi }, [],
        2⟩ := by
  have e1 : lo % 65536 = lo := by omega
  have e2 : hi % 65536 = hi := by omega
  have e3 : lo % 256 = lo := by omega
  have e4 : hi % 256 = hi := by omega
  have e5 : lo ≤ 4095 := by omega
  simp [updateElbowPos, updateElbowPosLoop, hst, and_ff, e1, e2, e3, e4, e5,
    assemble16_masked lo hi hlo]

/-- The byte kept by `GetByte() & 0xff` is at most `255`. -/
theorem low_byte_le (w : Nat) : (w % 65536) &&& 0xff ≤ 255 := by
  rw [and_ff]
  omega

/-- The loop of `updateShoulderPos` under the invariant `lowByteHeld`: after `fuel`
iterations (or fewer if the FIFO empties first) the invariant holds again, and each
iteration executed has read exactly one word. -/
theorem updateShoulderPosLoop_inv (fuel : Nat) (st : PosStatics) (g : Readings)
    (rx : List Nat) (hinv : st.lowByteHeld) :
    (updateShoulderPosLoop fuel st g rx).st.lowByteHeld ∧
    (updateShoulderPosLoop fuel st g rx).iters = min fuel rx.length ∧
    (updateShoulderPosLoop fuel st g rx).rx = rx.drop fuel := by
  induction fuel generalizing st g rx with
  | zero => simp [updateShoulderPosLoop, hinv]
  | succ n ih =>
    cases rx with
    | nil => simp [updateShoulderPosLoop, hinv]
    | cons w rest =>
      obtain ⟨c, t⟩ := st
      cases c with
      | low =>
        have hnext : PosStatics.lowByteHeld { state := .high, temp := (w % 65536) &&& 0xff } :=
          fun _ => low_byte_le w
        obtain ⟨i1, i2, i3⟩ := ih { state := .high, temp := (w % 65536) &&& 0xff } g rest hnext
        simp only [updateShoulderPosLoop, List.length_cons, List.drop_succ_cons]
        exact ⟨i1, by rw [i2]; omega, i3⟩
      | high =>
        have ht : t ≤ 4095 := by
          have h255 : t ≤ 255 := hinv rfl
          omega
        have hnext : ∀ v, PosStatics.lowByteHeld { state := .low, temp := v } := by
          intro v h
          cases h
        obtain ⟨i1, i2, i3⟩ := ih
          { state := .low, temp := (t ||| (((w % 65536) <<< 8) &&& 0xff00)) % 65536 }
          { g with shoulderPos := (t ||| (((w % 65536) <<< 8) &&& 0xff00)) % 65536 } rest
          (hnext _)
        simp only [updateShoulderPosLoop, ht, if_true, List.length_cons, List.drop_succ_cons]
        exact ⟨i1, by rw [i2]; omega, i3⟩

/-- The loop of `updateElbowPos` under the invariant `lowByteHeld`: after `fuel`
iterations (or fewer if the FIFO empties first) the invariant holds again, and each
iteration executed has read exactly one word. -/
theorem updateElbowPosLoop_inv (fuel : Nat) (st : PosStatics) (g : Readings)
    (rx : List Nat) (hinv : st.lowByteHeld) :
    (updateElbowPosLoop fuel st g rx).st.lowByteHeld ∧
    (updateElbowPosLoop fuel st g rx).iters = min fuel rx.length ∧
    (updateElbowPosLoop fuel st g rx).rx = rx.drop fuel := by
  induction fuel generalizing st g rx with
  | zero => simp [updateElbowPosLoop, hinv]
  | succ n ih =>
    cases rx with
    | nil => simp [updateElbowPosLoop, hinv]
    | cons w rest =>
      obtain ⟨c, t⟩ := st
      cases c with
      | low =>
        have hnext : PosStatics.lowByteHeld { state := .high, temp := (w % 65536) &&& 0xff } :=
          fun _ => low_byte_le w
        obtain ⟨i1, i2, i3⟩ := ih { state := .high, temp := (w % 65536) &&& 0xff } g rest hnext
        simp only [updateElbowPosLoop, List.length_cons, List.drop_succ_cons]
        exact ⟨i1, by rw [i2]; omega, i3⟩
      | high =>
        have ht : t ≤ 4095 := by
          have h255 : t ≤ 255 := hinv rfl
          omega
        have hnext : ∀ v, PosStatics.lowByteHeld { state := .low, temp := v } := by
          intro v h
          cases h
        obtain ⟨i1, i2, i3⟩ := ih
          { state := .low, temp := (t ||| (((w % 65536) <<< 8) &&& 0xff00)) % 65536 }
          { g with elbowPos := (t ||| (((w % 65536) <<< 8) &&& 0xff00)) % 65536 } rest
          (hnext _)
        simp only [updateElbowPosLoop, ht, if_true, List.length_cons, List.drop_succ_cons]
        exact ⟨i1, by rw [i2]; omega, i3⟩

/-- The loop of `updateForearmPos` under the invariant `lowByteHeld`: after `fuel`
iterations (or fewer if the FIFO empties first) the invariant holds again, and each
iteration executed has read exactly one word. -/
theorem updateForearmPosLoop_inv (fuel : Nat) (st : PosStatics) (g : Readings)
    (rx : List Nat) (hinv : st.lowByteHeld) :
    (updateForearmPosLoop fuel st g rx).st.lowByteHeld ∧
    (updateForearmPosLoop fuel st g rx).iters = min fuel rx.length ∧
    (updateForearmPosLoop fuel st g rx).rx = rx.drop fuel := by
  induction fuel generalizing st g rx with
  | zero => simp [updateForearmPosLoop, hinv]
  | succ n ih =>
    cases rx with
    | nil => simp [updateForearmPosLoop, hinv]
    | cons w rest =>
      obtain ⟨c, t⟩ := st
      cases c with
      | low =>
        have hnext : PosStatics.lowByteHeld { state := .high, temp := (w % 65536) &&& 0xff } :=
          fun _ => low_byte_le w
        obtain ⟨i1, i2, i3⟩ := ih { state := .high, temp := (w % 65536) &&& 0xff } g rest hnext
        simp only [updateForearmPosLoop, List.length_cons, List.drop_succ_cons]
        exact ⟨i1, by rw [i2]; omega, i3⟩
      | high =>
        have ht : t ≤ 4095 := by
          have h255 : t ≤ 255 := hinv rfl
          omega
        have hnext : ∀ v, PosStatics.lowByteHeld { state := .low, temp := v } := by
          intro v h
          cases h
        obtain ⟨i1, i2, i3⟩ := ih
          { state := .low, temp := (t ||| (((w % 65536) <<< 8) &&& 0xff00)) % 65536 }
          { g with forearmPos := (t ||| (((w % 65536) <<< 8) &&& 0xff00)) % 65536 } rest
          (hnext _)
        simp only [updateForearmPosLoop, ht, if_true, List.length_cons, List.drop_succ_cons]
        exact ⟨i1, by rw [i2]; omega, i3⟩

/-! ## Lemmas on the humidity latch -/

/-- The `switch` of `scienceEventHandler` leaves a published humidity above `1023` as it
is, in every cursor state and for every byte. -/
theorem scienceSwitch_humidity_latched (st : ScienceStatics) (g : Readings) (byte : Nat)
    (h : 1023 < g.humidity) : (scienceSwitch st g byte).2.humidity = g.humidity := by
  have hn : ¬ g.humidity ≤ 1023 := by omega
  obtain ⟨c, t⟩ := st
  cases c <;> simp only [scienceSwitch, hn, if_false] <;> (try split) <;> rfl

/-- One call of `scienceEventHandler` leaves a published humidity above `1023` as it is,
from every cursor state and for every buffer content, faulty words included. -/
theorem scienceEventHandler_humidity_latched (rx : List Nat) (st : ScienceStatics)
    (g : Readings) (h : 1023 < g.humidity) :
    (scienceEventHandler st g rx).g.humidity = g.humidity := by
  induction rx generalizing st g with
  | nil => rfl
  | cons w rest ih =>
    simp only [scienceEventHandler]
    split
    · rfl
    · have hstep := scienceSwitch_humidity_latched st g (w % 65536) h
      rw [ih _ _ (by rw [hstep]; exact h), hstep]

/-- Successive calls of `scienceEventHandler` leave a published humidity above `1023` as it
is. -/
theorem scienceFeed_humidity_latched (chunks : List (List Nat)) (st : ScienceStatics)
    (g : Readings) (pending : List Nat) (h : 1023 < g.humidity) :
    (scienceFeed st g pending chunks).2.humidity = g.humidity := by
  induction chunks generalizing st g pending with
  | nil => rfl
  | cons c cs ih =>
    have hcall := scienceEventHandler_humidity_latched (pending ++ c) st g h
    simp only [scienceFeed]
    rw [ih _ _ _ (by rw [hcall]; exact h), hcall]

/-! ## The claims -/

/-- C1. Chunking invariance of the uplink command decoder: for a well-formed command
frame (`0xEA` and 16 field bytes, zero status) and any split of it into `N` non-empty
consecutive chunks (so `1 ≤ N ≤ 17`), calling `compRxEventHandler` once per chunk from the
preamble state yields the same driver calls and the same variables (in particular the same
`Payload` and the same cursor, which is the preamble state again) as one call on the whole
frame. -/
theorem C1_chunking_invariance (s : CompRx) (fields : List Nat) (chunks : List (List Nat))
    (hpre : s.compRxState = .pre0) (hlen : fields.length = 16)
    (hbytes : ∀ b ∈ fields, b < 256) (hne : ∀ c ∈ chunks, c ≠ [])
    (hsplit : chunks.flatten = PREAMBLE0 :: fields) :
    (1 ≤ chunks.length ∧ chunks.length ≤ 17) ∧
    (compRxFeed s [] chunks).2 = (compRxEventHandler s (PREAMBLE0 :: fields)).out ∧
    (compRxFeed s [] chunks).1 = (compRxEventHandler s (PREAMBLE0 :: fields)).st ∧
    (compRxFeed s [] chunks).1.Payload =
      (compRxEventHandler s (PREAMBLE0 :: fields)).st.Payload ∧
    (compRxFeed s [] chunks).1.compRxState =
      (compRxEventHandler s (PREAMBLE0 :: fields)).st.compRxState ∧
    (compRxEventHandler s (PREAMBLE0 :: fields)).st.compRxState = .pre0 := by
  have hframe : ∀ b ∈ PREAMBLE0 :: fields, b < 256 := by
    intro b hb
    rcases List.mem_cons.mp hb with h | h
    · rw [h]; decide
    · exact hbytes b h
  have hchunks := chunks_clean (PREAMBLE0 :: fields) chunks hframe hsplit
  have hN : 1 ≤ chunks.length ∧ chunks.length ≤ 17 := by
    have hle := length_le_flatten_length chunks hne
    rw [hsplit, List.length_cons, hlen] at hle
    refine ⟨?_, hle⟩
    cases chunks with
    | nil => simp at hsplit
    | cons c cs => simp
  have hcur : (compRxEventHandler s (PREAMBLE0 :: fields)).st.compRxState = .pre0 := by
    obtain ⟨f, hf⟩ := exists_frame fields hlen
    have hwf : f.wellFormed := by
      intro b hb
      rw [hf] at hb
      exact hbytes b hb
    have hrun := compRxEventHandler_frame s f hpre hwf
    rw [CommandFrame.words, hf] at hrun
    rw [hrun]
  rw [compRxFeed_clean chunks hchunks, hsplit]
  rw [compRxEventHandler_clean _ hframe] at hcur ⊢
  exact ⟨hN, rfl, rfl, rfl, rfl, hcur⟩

/-- Witness of C1: `demoFrame` fed from the start-up state in the five chunks of
`demoChunks`. -/
theorem C1_chunking_invariance_witness :
    (compRxInit.compRxState = .pre0 ∧ demoFrame.fields.length = 16 ∧
      (∀ b ∈ demoFrame.fields, b < 256) ∧ (∀ c ∈ demoChunks, c ≠ []) ∧
      demoChunks.flatten = PREAMBLE0 :: demoFrame.fields) ∧
    ((1 ≤ demoChunks.length ∧ demoChunks.length ≤ 17) ∧
      (compRxFeed compRxInit [] demoChunks).2 =
        (compRxEventHandler compRxInit (PREAMBLE0 :: demoFrame.fields)).out ∧
      (compRxFeed compRxInit [] demoChunks).1 =
        (compRxEventHandler compRxInit (PREAMBLE0 :: demoFrame.fields)).st ∧
      (compRxFeed compRxInit [] demoChunks).1.Payload =
        (compRxEventHandler compRxInit (PREAMBLE0 :: demoFrame.fields)).st.Payload ∧
      (compRxFeed compRxInit [] demoChunks).1.compRxState =
        (compRxEventHandler compRxInit (PREAMBLE0 :: demoFrame.fields)).st.compRxState ∧
      (compRxEventHandler compRxInit (PREAMBLE0 :: demoFrame.fields)).st.compRxState =
        .pre0) :=
  ⟨⟨rfl, rfl, by decide, by decide, by decide⟩,
   C1_chunking_invariance compRxInit demoFrame.fields demoChunks rfl rfl (by decide)
     (by decide) (by decide)⟩

/-- C2, as stated, fails: for the all-zero frame fed from the start-up state the driver
calls come in the order wheel speed, wheel direction, wheel speed, wheel direction, ...;
the second call is the left direction write and the third the right speed write, so the
calls are not in the order "wheels, wheel directions, joints, hand, chutes". -/
theorem C2_order_counterexample :
    (compRxEventHandler compRxInit zeroFrame.words).out.filterMap Out.fieldGroup =
      [.wheels, .wheelDirections, .wheels, .wheelDirections, .joints, .joints, .joints,
       .joints, .hand, .hand, .hand, .chutes] ∧
    (compRxEventHandler compRxInit zeroFrame.words).out.take 3 =
      [.PWM_Drive_WriteCompare1 0, .leftWheelDir_Write 1, .PWM_Drive_WriteCompare2 0] ∧
    ¬ List.Pairwise (fun a b => FieldGroup.rank a ≤ FieldGroup.rank b)
        ((compRxEventHandler compRxInit zeroFrame.words).out.filterMap Out.fieldGroup) := by
  rw [compRxEventHandler_frame compRxInit zeroFrame rfl (by decide)]
  decide

/-- C2, amended. For a well-formed frame fed from the preamble state, the driver calls are
exactly `routerCalls f`: one block per field in frame order (left wheel speed, left wheel
direction, right wheel speed, right wheel direction, turret, shoulder, elbow, forearm,
hand, chutes byte), and they are the same for every split of the frame into `N` non-empty
chunks (`1 ≤ N ≤ 17`) fed to successive calls. -/
theorem C2_router_calls_in_frame_order (s : CompRx) (f : CommandFrame)
    (chunks : List (List Nat)) (hs : s.compRxState = .pre0) (hf : f.wellFormed)
    (hne : ∀ c ∈ chunks, c ≠ []) (hsplit : chunks.flatten = f.words) :
    (compRxEventHandler s f.words).out = routerCalls f ∧
    (compRxFeed s [] chunks).2 = routerCalls f ∧
    (1 ≤ chunks.length ∧ chunks.length ≤ 17) := by
  refine ⟨?_, ?_, ?_, ?_⟩
  · rw [compRxEventHandler_frame s f hs hf]
  · rw [compRxFeed_clean chunks (chunks_clean f.words chunks (f.words_clean hf) hsplit),
      hsplit, compRxLoop_frame s f hs hf]
  · cases chunks with
    | nil => simp [CommandFrame.words] at hsplit
    | cons c cs => simp
  · have hle := length_le_flatten_length chunks hne
    rw [hsplit] at hle
    exact hle

/-- Witness of C2 (amended): `demoFrame` in one call and in the chunks of `demoChunks`. -/
theorem C2_router_calls_in_frame_order_witness :
    (compRxInit.compRxState = .pre0 ∧ demoFrame.wellFormed ∧ (∀ c ∈ demoChunks, c ≠ []) ∧
      demoChunks.flatten = demoFrame.words) ∧
    ((compRxEventHandler compRxInit demoFrame.words).out = routerCalls demoFrame ∧
      (compRxFeed compRxInit [] demoChunks).2 = routerCalls demoFrame ∧
      (1 ≤ demoChunks.length ∧ demoChunks.length ≤ 17)) :=
  ⟨⟨rfl, by decide, by decide, by decide⟩,
   C2_router_calls_in_frame_order compRxInit demoFrame demoChunks rfl (by decide)
     (by decide) (by decide)⟩

/-- C3, as stated, fails: the direction byte `2` is non-zero, but the value written to the
right-wheel direction line is `2`, not `1`. -/
theorem C3_right_dir_counterexample :
    (compRxEventHandler { compRxInit with compRxState := .rightdir } [2]).out =
      [.rightWheelDir_Write 2] ∧
    (compRxEventHandler { compRxInit with compRxState := .rightdir } [2]).out ≠
      [.rightWheelDir_Write (if (2 : Nat) ≠ 0 then 1 else 0)] := by
  rw [compRxEventHandler_single _ 2 (by decide)]
  decide

/-- C3, amended. The byte consumed in the `rightdir` state is passed unchanged to
`rightWheelDir_Write`; the value written is the byte's truthiness exactly when the byte is
`0` or `1`. The cursor moves on to `turretlo`. -/
theorem C3_right_dir_verbatim (s : CompRx) (b : Nat) (hs : s.compRxState = .rightdir)
    (hb : b < 256) :
    (compRxEventHandler s [b]).out = [.rightWheelDir_Write b] ∧
    ((compRxEventHandler s [b]).out = [.rightWheelDir_Write (if b ≠ 0 then 1 else 0)] ↔
      b ≤ 1) ∧
    (compRxEventHandler s [b]).st.compRxState = .turretlo := by
  rw [compRxEventHandler_single s b hb]
  simp only [compRxSwitch, hs]
  refine ⟨trivial, ?_, trivial⟩
  by_cases h0 : b = 0
  · simp [h0]
  · simp only [ne_eq, h0, not_false_eq_true, if_true, List.cons.injEq, Out.rightWheelDir_Write.injEq,
      and_true]
    omega

/-- Witness of C3 (amended) at the direction byte `2`. -/
theorem C3_right_dir_verbatim_witness :
    (({ compRxInit with compRxState := .rightdir } : CompRx).compRxState = .rightdir ∧
      (2 : Nat) < 256) ∧
    ((compRxEventHandler { compRxInit with compRxState := .rightdir } [2]).out =
        [.rightWheelDir_Write 2] ∧
      ((compRxEventHandler { compRxInit with compRxState := .rightdir } [2]).out =
        [.rightWheelDir_Write (if (2 : Nat) ≠ 0 then 1 else 0)] ↔ 2 ≤ 1) ∧
      (compRxEventHandler { compRxInit with compRxState := .rightdir } [2]).st.compRxState =
        .turretlo) :=
  ⟨⟨rfl, by decide⟩,
   C3_right_dir_verbatim { compRxInit with compRxState := .rightdir } 2 rfl (by decide)⟩

/-- C4. The byte consumed in the `leftdir` state is inverted: the value written to the
left-wheel direction line is `1` if the byte is zero and `0` if it is non-zero. The cursor
moves on to `rightlo`. -/
theorem C4_left_dir_inverted (s : CompRx) (b : Nat) (hs : s.compRxState = .leftdir)
    (hb : b < 256) :
    (compRxEventHandler s [b]).out = [.leftWheelDir_Write (if b = 0 then 1 else 0)] ∧
    (compRxEventHandler s [b]).st.compRxState = .rightlo := by
  rw [compRxEventHandler_single s b hb]
  simp only [compRxSwitch, hs, lnot]
  exact ⟨trivial, trivial⟩

/-- Witness of C4 at the direction bytes `0` and `2`. -/
theorem C4_left_dir_inverted_witness :
    (({ compRxInit with compRxState := .leftdir } : CompRx).compRxState = .leftdir ∧
      (0 : Nat) < 256 ∧ (2 : Nat) < 256) ∧
    ((compRxEventHandler { compRxInit with compRxState := .leftdir } [0]).out =
        [.leftWheelDir_Write (if (0 : Nat) = 0 then 1 else 0)] ∧
      (compRxEventHandler { compRxInit with compRxState := .leftdir } [0]).st.compRxState =
        .rightlo) ∧
    ((compRxEventHandler { compRxInit with compRxState := .leftdir } [2]).out =
        [.leftWheelDir_Write (if (2 : Nat) = 0 then 1 else 0)] ∧
      (compRxEventHandler { compRxInit with compRxState := .leftdir } [2]).st.compRxState =
        .rightlo) :=
  ⟨⟨rfl, by decide, by decide⟩,
   C4_left_dir_inverted { compRxInit with compRxState := .leftdir } 0 rfl (by decide),
   C4_left_dir_inverted { compRxInit with compRxState := .leftdir } 2 rfl (by decide)⟩

/-- C5 fails on the code: with `7` published as forearm position, the byte pair
`0x00, 0x10` (the value `4096`) fed to `updateForearmPos` from the `low` state is
published, although it exceeds `4095`; the loop has emptied the FIFO after two
iterations. -/
theorem C5_forearm_publishes_4096 :
    updateForearmPos posInit { readingsInit with forearmPos := 7 } [0x00, 0x10] =
      ⟨{ state := .low, temp := 4096 }, { readingsInit with forearmPos := 4096 }, [], 2⟩ := by
  decide

/-- C6. The function `updateTurretPos` on a byte pair `lo, hi` from the `low` state: the
published turret position becomes `lo + 256 * hi` if that value is at most `4095` and is
unchanged otherwise; no other reading changes, the FIFO is emptied and the cursor is back
at `low`. -/
theorem C6_turret_commits_in_range_only (st : PosStatics) (g : Readings) (lo hi : Nat)
    (hst : st.state = .low) (hlo : lo < 256) (hhi : hi < 256) :
    (updateTurretPos st g [lo, hi]).g =
      { g with turretPos := if lo + 256 * hi ≤ 4095 then lo + 256 * hi else g.turretPos } ∧
    (updateTurretPos st g [lo, hi]).st.state = .low ∧
    (updateTurretPos st g [lo, hi]).rx = [] := by
  have e1 : lo % 65536 = lo := by omega
  have e2 : hi % 65536 = hi := by omega
  have e3 : lo % 256 = lo := by omega
  have e4 : hi % 256 = hi := by omega
  simp only [updateTurretPos, hst, and_ff, e1, e2, e3, assemble16_masked lo hi hlo, e4]
  by_cases h : lo + 256 * hi ≤ 4095 <;> simp [h]

/-- Witness of C6 at the decoded values `4095` (published) and `4096` (not published),
with `7` published before. -/
theorem C6_turret_commits_in_range_only_witness :
    (posInit.state = .low ∧ (0xff : Nat) < 256 ∧ (0x0f : Nat) < 256 ∧ (0x00 : Nat) < 256 ∧
      (0x10 : Nat) < 256) ∧
    ((updateTurretPos posInit { readingsInit with turretPos := 7 } [0xff, 0x0f]).g =
        { ({ readingsInit with turretPos := 7 } : Readings) with
          turretPos := if 0xff + 256 * 0x0f ≤ 4095 then 0xff + 256 * 0x0f
            else ({ readingsInit with turretPos := 7 } : Readings).turretPos } ∧
      (updateTurretPos posInit { readingsInit with turretPos := 7 } [0xff, 0x0f]).st.state =
        .low ∧
      (updateTurretPos posInit { readingsInit with turretPos := 7 } [0xff, 0x0f]).rx = []) ∧
    ((updateTurretPos posInit { readingsInit with turretPos := 7 } [0x00, 0x10]).g =
        { ({ readingsInit with turretPos := 7 } : Readings) with
          turretPos := if 0x00 + 256 * 0x10 ≤ 4095 then 0x00 + 256 * 0x10
            else ({ readingsInit with turretPos := 7 } : Readings).turretPos } ∧
      (updateTurretPos posInit { readingsInit with turretPos := 7 } [0x00, 0x10]).st.state =
        .low ∧
      (updateTurretPos posInit { readingsInit with turretPos := 7 } [0x00, 0x10]).rx = []) :=
  ⟨⟨rfl, by decide, by decide, by decide, by decide⟩,
   C6_turret_commits_in_range_only posInit { readingsInit with turretPos := 7 } 0xff 0x0f rfl
     (by decide) (by decide),
   C6_turret_commits_in_range_only posInit { readingsInit with turretPos := 7 } 0x00 0x10 rfl
     (by decide) (by decide)⟩

/-- C7 fails on the code: at process start the cursor of `scienceEventHandler` is `templo`,
not the first-preamble state, so the first frame `0xFF, 0x9E, 5, 0, 7, 0` (temperature `5`,
humidity `7`) is misread: its preamble is taken as a temperature (`0x9EFF`, rejected), its
temperature as the humidity, and its humidity bytes are skipped while searching for a
preamble. The published temperature stays `0` and the published humidity becomes `5`. -/
theorem C7_first_frame_misread :
    scienceEventHandler scienceInit readingsInit [0xFF, 0x9E, 5, 0, 7, 0] =
      ⟨{ state := .pre0, temp := 5 }, { readingsInit with temperature := 0, humidity := 5 },
        []⟩ ∧
    (scienceEventHandler scienceInit readingsInit [0xFF, 0x9E, 5, 0, 7, 0]).g.temperature ≠ 5 ∧
    (scienceEventHandler scienceInit readingsInit [0xFF, 0x9E, 5, 0, 7, 0]).g.humidity ≠ 7 := by
  decide

/-- C8, as stated, fails at `b = 0xFF`: consumed while waiting for the second preamble
byte it sends the cursor to `pre0`, whereas a decoder in the first-preamble state that
consumes `0xFF` moves to `pre1`. -/
theorem C8_second_preamble_counterexample :
    (0xFF : Nat) ≠ 0x9E ∧
    (scienceEventHandler { state := .pre1, temp := 0 } readingsInit [0xFF]).st.state = .pre0 ∧
    (scienceEventHandler { state := .pre0, temp := 0 } readingsInit [0xFF]).st.state = .pre1 ∧
    (scienceEventHandler { state := .pre1, temp := 0 } readingsInit [0xFF]).st.state ≠
      (scienceEventHandler { state := .pre0, temp := 0 } readingsInit [0xFF]).st.state := by
  decide

/-- C8, amended. A byte `b ≠ 0x9E` consumed while waiting for the second preamble byte is
dropped and the cursor returns to the first-preamble state, nothing else changing; for
`b ≠ 0xFF` that is the cursor of a decoder that consumed `b` in the first-preamble
state. -/
theorem C8_second_preamble_mismatch_restarts (st : ScienceStatics) (g : Readings) (b : Nat)
    (hst : st.state = .pre1) (hb : b < 256) (hne : b ≠ 0x9E) :
    scienceEventHandler st g [b] = ⟨{ st with state := .pre0 }, g, []⟩ ∧
    (b ≠ 0xFF →
      (scienceEventHandler st g [b]).st.state =
        (scienceEventHandler { st with state := .pre0 } g [b]).st.state) := by
  rw [scienceEventHandler_cons_clean st g b hb, scienceEventHandler_cons_clean _ g b hb]
  constructor
  · simp [scienceSwitch, hst, hne, scienceEventHandler]
  · intro hff
    simp [scienceSwitch, hst, hne, hff, scienceEventHandler]

/-- Witness of C8 (amended): the input `0xFF, 0x00` of the specification; the decoder that
consumed `0xFF` in the first-preamble state then consumes `0x00`. -/
theorem C8_second_preamble_mismatch_restarts_witness :
    ((scienceEventHandler { state := .pre0, temp := 0 } readingsInit [0xFF]).st.state = .pre1 ∧
      (0x00 : Nat) < 256 ∧ (0x00 : Nat) ≠ 0x9E) ∧
    (scienceEventHandler
        (scienceEventHandler { state := .pre0, temp := 0 } readingsInit [0xFF]).st
        readingsInit [0x00] =
      ⟨{ (scienceEventHandler { state := .pre0, temp := 0 } readingsInit [0xFF]).st with
          state := .pre0 }, readingsInit, []⟩ ∧
      ((0x00 : Nat) ≠ 0xFF →
        (scienceEventHandler
            (scienceEventHandler { state := .pre0, temp := 0 } readingsInit [0xFF]).st
            readingsInit [0x00]).st.state =
          (scienceEventHandler
            { (scienceEventHandler { state := .pre0, temp := 0 } readingsInit [0xFF]).st with
              state := .pre0 } readingsInit [0x00]).st.state)) :=
  ⟨⟨by decide, by decide, by decide⟩,
   C8_second_preamble_mismatch_restarts
     (scienceEventHandler { state := .pre0, temp := 0 } readingsInit [0xFF]).st
     readingsInit 0x00 (by decide) (by decide) (by decide)⟩

/-- C9. A byte pair `lo, hi` consumed by `scienceEventHandler` in the `templo` and `temphi`
states: the published temperature becomes `lo + 256 * hi` if that value is at most `100`
and is unchanged otherwise; no other reading changes and the cursor moves on to
`humlo`. -/
theorem C9_temperature_commits_in_range_only (st : ScienceStatics) (g : Readings)
    (lo hi : Nat) (hst : st.state = .templo) (hlo : lo < 256) (hhi : hi < 256) :
    (scienceEventHandler st g [lo, hi]).g =
      { g with temperature := if lo + 256 * hi ≤ 100 then ((lo + 256 * hi : Nat) : Int)
          else g.temperature } ∧
    (scienceEventHandler st g [lo, hi]).st.state = .humlo ∧
    (scienceEventHandler st g [lo, hi]).rx = [] := by
  have e1 : lo % 65536 = lo := by omega
  have e4 : hi % 256 = hi := by omega
  rw [scienceEventHandler_cons_clean st g lo hlo, scienceEventHandler_cons_clean _ _ hi hhi]
  simp only [scienceSwitch, hst, e1, assemble16_masked_left lo hi hlo, e4, scienceEventHandler]
  by_cases h : lo + 256 * hi ≤ 100
  · have h2 : lo + 256 * hi < 32768 := by omega
    simp [h, toInt16_small _ h2]
  · simp [h]

/-- Witness of C9 at the decoded values `100` (published) and `101` (not published), with
`20` published before. -/
theorem C9_temperature_commits_in_range_only_witness :
    (scienceInit.state = .templo ∧ (100 : Nat) < 256 ∧ (101 : Nat) < 256 ∧ (0 : Nat) < 256) ∧
    ((scienceEventHandler scienceInit { readingsInit with temperature := 20 } [100, 0]).g =
        { ({ readingsInit with temperature := 20 } : Readings) with
          temperature := if 100 + 256 * 0 ≤ 100 then ((100 + 256 * 0 : Nat) : Int)
            else ({ readingsInit with temperature := 20 } : Readings).temperature } ∧
      (scienceEventHandler scienceInit { readingsInit with temperature := 20 }
        [100, 0]).st.state = .humlo ∧
      (scienceEventHandler scienceInit { readingsInit with temperature := 20 }
        [100, 0]).rx = []) ∧
    ((scienceEventHandler scienceInit { readingsInit with temperature := 20 } [101, 0]).g =
        { ({ readingsInit with temperature := 20 } : Readings) with
          temperature := if 101 + 256 * 0 ≤ 100 then ((101 + 256 * 0 : Nat) : Int)
            else ({ readingsInit with temperature := 20 } : Readings).temperature } ∧
      (scienceEventHandler scienceInit { readingsInit with temperature := 20 }
        [101, 0]).st.state = .humlo ∧
      (scienceEventHandler scienceInit { readingsInit with temperature := 20 }
        [101, 0]).rx = []) :=
  ⟨⟨rfl, by decide, by decide, by decide⟩,
   C9_temperature_commits_in_range_only scienceInit { readingsInit with temperature := 20 }
     100 0 rfl (by decide) (by decide),
   C9_temperature_commits_in_range_only scienceInit { readingsInit with temperature := 20 }
     101 0 rfl (by decide) (by decide)⟩

/-- C10. One call of `heartbeatEventHandler` (with `DEBUG_MODE` equal to `0`) makes exactly
these calls, in this order: one `UART_Computer_PutArray` of the 13 bytes `0xE3` and the low
and high bytes of the turret, shoulder, elbow and forearm positions, the temperature and
the humidity; `UART_ScienceMCU_PutChar` of `0xAE` and of `0x01`; four feedback requests,
for the turret, the shoulder, the elbow and the forearm. Each byte is below `256`, each
pair `lo, hi` satisfies `lo + 256 * hi =` the reading's 16-bit pattern (the reading modulo
`65536`), and the published readings are unchanged. -/
theorem C10_heartbeat_output (g : Readings) :
    (heartbeatEventHandler g).out =
      [ .UART_Computer_PutArray
          [ 0xE3,
            g.turretPos % 256, g.turretPos / 256 % 256,
            g.shoulderPos % 256, g.shoulderPos / 256 % 256,
            g.elbowPos % 256, g.elbowPos / 256 % 256,
            g.forearmPos % 256, g.forearmPos / 256 % 256,
            (g.temperature % 256).toNat, (g.temperature / 256 % 256).toNat,
            (g.humidity % 256).toNat, (g.humidity / 256 % 256).toNat ],
        .UART_ScienceMCU_PutChar 0xAE,
        .UART_ScienceMCU_PutChar 0x01,
        .pololuControl_readVariable .POLOLUCONTROL_READ_FEEDBACK_COMMAND .POLOLUCONTROL_TURRET,
        .pololuControl_readVariable .POLOLUCONTROL_READ_FEEDBACK_COMMAND .POLOLUCONTROL_SHOULDER,
        .pololuControl_readVariable .POLOLUCONTROL_READ_FEEDBACK_COMMAND .POLOLUCONTROL_ELBOW,
        .pololuControl_readVariable .POLOLUCONTROL_READ_FEEDBACK_COMMAND
          .POLOLUCONTROL_FOREARM ] ∧
    (feedbackArray g).length = 13 ∧
    (∀ b ∈ feedbackArray g, b < 256) ∧
    g.turretPos % 256 + 256 * (g.turretPos / 256 % 256) = g.turretPos % 65536 ∧
    g.shoulderPos % 256 + 256 * (g.shoulderPos / 256 % 256) = g.shoulderPos % 65536 ∧
    g.elbowPos % 256 + 256 * (g.elbowPos / 256 % 256) = g.elbowPos % 65536 ∧
    g.forearmPos % 256 + 256 * (g.forearmPos / 256 % 256) = g.forearmPos % 65536 ∧
    (((g.temperature % 256).toNat + 256 * (g.temperature / 256 % 256).toNat : Nat) : Int) =
      g.temperature % 65536 ∧
    (((g.humidity % 256).toNat + 256 * (g.humidity / 256 % 256).toNat : Nat) : Int) =
      g.humidity % 65536 ∧
    (heartbeatEventHandler g).g = g := by
  refine ⟨?_, rfl, ?_, by omega, by omega, by omega, by omega, by omega, by omega, rfl⟩
  · simp only [heartbeatEventHandler, feedbackToOnboardComputer, feedbackArray,
      POSITION_PAYLOAD_SIZE, lowByte_nat, lowByte_int, shr8_nat, shr8_int]
    rfl
  · intro b hb
    simp only [feedbackArray, List.mem_cons, List.mem_singleton, List.not_mem_nil,
      or_false] at hb
    rcases hb with h | h | h | h | h | h | h | h | h | h | h | h | h <;>
      (rw [h]; exact Nat.mod_lt _ (by norm_num))

/-- C11, as stated, fails: fed in the mid-frame state `leftlo`, the all-zero frame has its
preamble byte `0xEA` taken as the low byte of the left wheel speed, so the first driver
call is `PWM_Drive_WriteCompare1 0xEA` instead of `PWM_Drive_WriteCompare1 0` and `Payload`
differs from the one the frame produces from `pre0`; and a well-formed frame whose chutes
byte is `0xEA` leaves the cursor at `leftlo`, not at `pre0`. -/
theorem C11_resync_counterexample :
    (compRxEventHandler { compRxInit with compRxState := .leftlo } zeroFrame.words).out.head? =
      some (.PWM_Drive_WriteCompare1 0xEA) ∧
    (compRxEventHandler compRxInit zeroFrame.words).out.head? =
      some (.PWM_Drive_WriteCompare1 0) ∧
    (compRxEventHandler { compRxInit with compRxState := .leftlo } zeroFrame.words).out ≠
      (compRxEventHandler compRxInit zeroFrame.words).out ∧
    (compRxEventHandler { compRxInit with compRxState := .leftlo } zeroFrame.words).st.Payload ≠
      (compRxEventHandler compRxInit zeroFrame.words).st.Payload ∧
    ({ zeroFrame with chutes := 0xEA } : CommandFrame).wellFormed ∧
    (compRxEventHandler { compRxInit with compRxState := .leftlo }
      ({ zeroFrame with chutes := 0xEA } : CommandFrame).words).st.compRxState = .leftlo := by
  decide

/-- C11, amended. The decoder looks for the preamble only in `pre0`. From any cursor
state it first consumes the `bytesToPreamble` bytes the interrupted frame still lacks
(none in `pre0`, sixteen in `leftlo`, ..., one in `chutes`), whatever they are, and is then
at `pre0`; a well-formed frame that follows them produces exactly the driver calls
`routerCalls f` and the `Payload` it produces from `pre0`, and leaves the cursor at
`pre0`. -/
theorem C11_resync_after_completing_frame (s : CompRx) (ws : List Nat) (f : CommandFrame)
    (hws : ∀ b ∈ ws, b < 256) (hlen : ws.length = bytesToPreamble s.compRxState)
    (hf : f.wellFormed) :
    (compRxEventHandler s ws).st.compRxState = .pre0 ∧
    (compRxEventHandler s (ws ++ f.words)).out =
      (compRxEventHandler s ws).out ++ routerCalls f ∧
    routerCalls f = (compRxEventHandler { s with compRxState := .pre0 } f.words).out ∧
    (compRxEventHandler s (ws ++ f.words)).st.Payload =
      (compRxEventHandler { s with compRxState := .pre0 } f.words).st.Payload ∧
    (compRxEventHandler s (ws ++ f.words)).st.compRxState = .pre0 := by
  have hpre := compRxLoop_to_preamble ws hws s hlen
  have hall : ∀ b ∈ ws ++ f.words, b < 256 := by
    intro b hb
    rcases List.mem_append.mp hb with h | h
    · exact hws b h
    · exact f.words_clean hf b h
  obtain ⟨u1, u2, u3, _⟩ := compRxLoop_untouched ws hws s
  rw [compRxEventHandler_clean ws hws, compRxEventHandler_clean _ hall,
    compRxLoop_append ws f.words hws, compRxLoop_frame _ f hpre hf,
    compRxEventHandler_frame { s with compRxState := .pre0 } f rfl hf]
  exact ⟨hpre, rfl, rfl, payloadAfter_congr _ _ f u1 u2 u3, rfl⟩

/-- Witness of C11 (amended): a frame truncated after its left wheel speed leaves the
cursor at `leftdir`; fourteen more bytes (here zeros) complete it, and `demoFrame` sent
after them is decoded as from `pre0`. -/
theorem C11_resync_after_completing_frame_witness :
    ((∀ b ∈ List.replicate 14 0, b < 256) ∧
      (List.replicate 14 0).length =
        bytesToPreamble ({ compRxInit with compRxState := .leftdir } : CompRx).compRxState ∧
      demoFrame.wellFormed) ∧
    ((compRxEventHandler { compRxInit with compRxState := .leftdir }
        (List.replicate 14 0)).st.compRxState = .pre0 ∧
      (compRxEventHandler { compRxInit with compRxState := .leftdir }
        (List.replicate 14 0 ++ demoFrame.words)).out =
        (compRxEventHandler { compRxInit with compRxState := .leftdir }
          (List.replicate 14 0)).out ++ routerCalls demoFrame ∧
      routerCalls demoFrame =
        (compRxEventHandler
          { ({ compRxInit with compRxState := .leftdir } : CompRx) with compRxState := .pre0 }
          demoFrame.words).out ∧
      (compRxEventHandler { compRxInit with compRxState := .leftdir }
        (List.replicate 14 0 ++ demoFrame.words)).st.Payload =
        (compRxEventHandler
          { ({ compRxInit with compRxState := .leftdir } : CompRx) with compRxState := .pre0 }
          demoFrame.words).st.Payload ∧
      (compRxEventHandler { compRxInit with compRxState := .leftdir }
        (List.replicate 14 0 ++ demoFrame.words)).st.compRxState = .pre0) :=
  ⟨⟨by decide, by decide, by decide⟩,
   C11_resync_after_completing_frame { compRxInit with compRxState := .leftdir }
     (List.replicate 14 0) demoFrame (by decide) (by decide) (by decide)⟩

/-- C12. Transport error in `compRxEventHandler`: when the buffer holds `k` zero-status
words, then a word with a non-zero status byte, then `rest`, the handler returns
`UART_READ_ERROR`, leaves exactly `rest` in the buffer, makes only the driver calls of the
`k` clean words, and leaves every variable but `data` (in particular the cursor and
`Payload`) as after the `k` clean words; when the buffer holds only zero-status words it
returns `SUCCESS` with the buffer empty. -/
theorem C12_transport_error (s : CompRx) (clean : List Nat) (w : Nat) (rest : List Nat)
    (hclean : ∀ b ∈ clean, b < 256) (hw1 : 256 ≤ w) (hw2 : w < 65536) :
    compRxEventHandler s (clean ++ w :: rest) =
      ⟨{ (compRxEventHandler s clean).st with data := w }, (compRxEventHandler s clean).out,
        rest, UART_READ_ERROR⟩ ∧
    (compRxEventHandler s (clean ++ w :: rest)).st.compRxState =
      (compRxEventHandler s clean).st.compRxState ∧
    (compRxEventHandler s (clean ++ w :: rest)).st.Payload =
      (compRxEventHandler s clean).st.Payload ∧
    (compRxEventHandler s clean).ret = SUCCESS ∧
    (compRxEventHandler s clean).rx = [] := by
  have hrun : compRxEventHandler s (clean ++ w :: rest) =
      ⟨{ (compRxEventHandler s clean).st with data := w }, (compRxEventHandler s clean).out,
        rest, UART_READ_ERROR⟩ := by
    rw [compRxEventHandler_clean clean hclean]
    simp [compRxEventHandler, compRxLoop_append clean (w :: rest) hclean,
      compRxLoop_cons_faulty _ w hw1 hw2]
  rw [hrun, compRxEventHandler_clean clean hclean]
  exact ⟨rfl, rfl, rfl, rfl, rfl⟩

/-- Witness of C12: two clean bytes, a word with the status byte `0x01`, and one more word
left unread, from the start-up state. -/
theorem C12_transport_error_witness :
    ((∀ b ∈ [0xEA, 0x34], b < 256) ∧ 256 ≤ 0x0112 ∧ 0x0112 < 65536) ∧
    (compRxEventHandler compRxInit ([0xEA, 0x34] ++ 0x0112 :: [0x56]) =
        ⟨{ (compRxEventHandler compRxInit [0xEA, 0x34]).st with data := 0x0112 },
          (compRxEventHandler compRxInit [0xEA, 0x34]).out, [0x56], UART_READ_ERROR⟩ ∧
      (compRxEventHandler compRxInit ([0xEA, 0x34] ++ 0x0112 :: [0x56])).st.compRxState =
        (compRxEventHandler compRxInit [0xEA, 0x34]).st.compRxState ∧
      (compRxEventHandler compRxInit ([0xEA, 0x34] ++ 0x0112 :: [0x56])).st.Payload =
        (compRxEventHandler compRxInit [0xEA, 0x34]).st.Payload ∧
      (compRxEventHandler compRxInit [0xEA, 0x34]).ret = SUCCESS ∧
      (compRxEventHandler compRxInit [0xEA, 0x34]).rx = []) :=
  ⟨⟨by decide, by decide, by decide⟩,
   C12_transport_error compRxInit [0xEA, 0x34] 0x0112 [0x56] (by decide) (by decide)
     (by decide)⟩

/-- C13. For a well-formed frame fed from the preamble state, whatever `Payload` held
before, the calls that forward 16-bit fields are, in order, the left wheel speed, the right
wheel speed and the turret, shoulder, elbow and forearm destinations (each with its own
motor tag), each with the value `lo + 256 * hi` of its two frame bytes, and the
corresponding `Payload` members hold the same values afterwards. -/
theorem C13_fields_little_endian (s : CompRx) (f : CommandFrame)
    (hs : s.compRxState = .pre0) (hf : f.wellFormed) :
    (compRxEventHandler s f.words).out.filter Out.is16BitField =
      [ .PWM_Drive_WriteCompare1 (f.leftLo + 256 * f.leftHi),
        .PWM_Drive_WriteCompare2 (f.rightLo + 256 * f.rightHi),
        .pololuControl_driveMotor (f.turretLo + 256 * f.turretHi) .POLOLUCONTROL_TURRET,
        .pololuControl_driveMotor (f.shoulderLo + 256 * f.shoulderHi) .POLOLUCONTROL_SHOULDER,
        .pololuControl_driveMotor (f.elbowLo + 256 * f.elbowHi) .POLOLUCONTROL_ELBOW,
        .pololuControl_driveMotor (f.forearmLo + 256 * f.forearmHi) .POLOLUCONTROL_FOREARM ] ∧
    (compRxEventHandler s f.words).st.Payload.leftWheels = f.leftLo + 256 * f.leftHi ∧
    (compRxEventHandler s f.words).st.Payload.rightWheels = f.rightLo + 256 * f.rightHi ∧
    (compRxEventHandler s f.words).st.Payload.turretDest = f.turretLo + 256 * f.turretHi ∧
    (compRxEventHandler s f.words).st.Payload.shoulderDest =
      f.shoulderLo + 256 * f.shoulderHi ∧
    (compRxEventHandler s f.words).st.Payload.elbowDest = f.elbowLo + 256 * f.elbowHi ∧
    (compRxEventHandler s f.words).st.Payload.forearmDest =
      f.forearmLo + 256 * f.forearmHi := by
  rw [compRxEventHandler_frame s f hs hf]
  refine ⟨?_, rfl, rfl, rfl, rfl, rfl, rfl⟩
  have hlid : (if f.chutes &&& 0x80 ≠ 0 then [Out.PWM_BoxLid_WriteCompare SERVO_MIN]
      else [Out.PWM_BoxLid_WriteCompare SERVO_MAX]).filter Out.is16BitField = [] := by
    split_ifs <;> rfl
  have hch : (if f.chutes &&& 0x40 ≠ 0 then control_chutes f.chutes
      else []).filter Out.is16BitField = [] := by
    split_ifs
    · exact control_chutes_filter_is16BitField f.chutes
    · rfl
  simp only [routerCalls, List.filter_append, driveHand_filter_is16BitField, hlid, hch,
    List.append_nil]
  rfl

/-- Witness of C13: `demoFrame` fed from the start-up state. -/
theorem C13_fields_little_endian_witness :
    (compRxInit.compRxState = .pre0 ∧ demoFrame.wellFormed) ∧
    ((compRxEventHandler compRxInit demoFrame.words).out.filter Out.is16BitField =
      [ .PWM_Drive_WriteCompare1 (demoFrame.leftLo + 256 * demoFrame.leftHi),
        .PWM_Drive_WriteCompare2 (demoFrame.rightLo + 256 * demoFrame.rightHi),
        .pololuControl_driveMotor (demoFrame.turretLo + 256 * demoFrame.turretHi)
          .POLOLUCONTROL_TURRET,
        .pololuControl_driveMotor (demoFrame.shoulderLo + 256 * demoFrame.shoulderHi)
          .POLOLUCONTROL_SHOULDER,
        .pololuControl_driveMotor (demoFrame.elbowLo + 256 * demoFrame.elbowHi)
          .POLOLUCONTROL_ELBOW,
        .pololuControl_driveMotor (demoFrame.forearmLo + 256 * demoFrame.forearmHi)
          .POLOLUCONTROL_FOREARM ] ∧
    (compRxEventHandler compRxInit demoFrame.words).st.Payload.leftWheels =
      demoFrame.leftLo + 256 * demoFrame.leftHi ∧
    (compRxEventHandler compRxInit demoFrame.words).st.Payload.rightWheels =
      demoFrame.rightLo + 256 * demoFrame.rightHi ∧
    (compRxEventHandler compRxInit demoFrame.words).st.Payload.turretDest =
      demoFrame.turretLo + 256 * demoFrame.turretHi ∧
    (compRxEventHandler compRxInit demoFrame.words).st.Payload.shoulderDest =
      demoFrame.shoulderLo + 256 * demoFrame.shoulderHi ∧
    (compRxEventHandler compRxInit demoFrame.words).st.Payload.elbowDest =
      demoFrame.elbowLo + 256 * demoFrame.elbowHi ∧
    (compRxEventHandler compRxInit demoFrame.words).st.Payload.forearmDest =
      demoFrame.forearmLo + 256 * demoFrame.forearmHi) :=
  ⟨⟨rfl, by decide⟩, C13_fields_little_endian compRxInit demoFrame rfl (by decide)⟩

/-- C14. A byte `b` consumed in the `chutes` state: (1) the chute drive lines are written
(by the eight writes of `control_chutes`) if bit 6 of `b` is set, and no chute line is
written, so all keep their level, if it is clear; (2) when written, line `a` of chute `i`
gets bit `i - 1` of `b` and line `b` its complement, and the driver calls are the same for
every byte that differs from `b` only in bits 4 and 5; (3) the lid compare value is written
exactly once, last, in every case: `SERVO_MIN` (1000) if bit 7 is set, `SERVO_MAX` (2000)
otherwise; (4) the cursor returns to `pre0`. -/
theorem C14_chutes_byte (s : CompRx) (l : Lines) (b : Nat) (hs : s.compRxState = .chutes)
    (hb : b < 256) :
    (compRxEventHandler s [b]).out =
      (if b / 64 % 2 = 1 then control_chutes b else []) ++
        [Out.PWM_BoxLid_WriteCompare (if b / 128 % 2 = 1 then 1000 else 2000)] ∧
    ((compRxEventHandler s [b]).out.filter Out.isChuteWrite).length =
      (if b / 64 % 2 = 1 then 8 else 0) ∧
    (b / 64 % 2 = 0 →
      (l.run (compRxEventHandler s [b]).out) =
        { l with PWM_BoxLid_Compare := if b / 128 % 2 = 1 then 1000 else 2000 }) ∧
    (b / 64 % 2 = 1 →
      (l.run (compRxEventHandler s [b]).out) =
        { l with
          chute1a := b % 2, chute1b := 1 - b % 2,
          chute2a := b / 2 % 2, chute2b := 1 - b / 2 % 2,
          chute3a := b / 4 % 2, chute3b := 1 - b / 4 % 2,
          chute4a := b / 8 % 2, chute4b := 1 - b / 8 % 2,
          PWM_BoxLid_Compare := if b / 128 % 2 = 1 then 1000 else 2000 }) ∧
    (∀ c, c < 256 → c % 16 = b % 16 → c / 64 = b / 64 →
      (compRxEventHandler s [c]).out = (compRxEventHandler s [b]).out) ∧
    (compRxEventHandler s [b]).st.compRxState = .pre0 := by
  rw [compRxEventHandler_chutes s b hs hb]
  refine ⟨rfl, ?_, ?_, ?_, ?_, rfl⟩
  · by_cases h6 : b / 64 % 2 = 1
    · simp [h6, List.filter_append, (control_chutes_filter_isChuteWrite b).1,
        (control_chutes_filter_isChuteWrite b).2, Out.isChuteWrite]
    · simp [h6, Out.isChuteWrite]
  · intro h6
    have h6n : ¬ (b / 64 % 2 = 1) := by omega
    simp [h6n, Lines.run, Lines.write, SERVO_MIN, SERVO_MAX]
  · intro h6
    simp only [h6, if_true, Lines.run_append, control_chutes_lines]
    simp [Lines.run, Lines.write, SERVO_MIN, SERVO_MAX]
  · intro c hc h16 h64
    rw [compRxEventHandler_chutes s c hs hc]
    have e0 : c % 2 = b % 2 := by omega
    have e1 : c / 2 % 2 = b / 2 % 2 := by omega
    have e2 : c / 4 % 2 = b / 4 % 2 := by omega
    have e3 : c / 8 % 2 = b / 8 % 2 := by omega
    have e6 : c / 64 % 2 = b / 64 % 2 := by omega
    have e7 : c / 128 % 2 = b / 128 % 2 := by
      have k1 : c / 128 = c / 64 / 2 := by omega
      have k2 : b / 128 = b / 64 / 2 := by omega
      rw [k1, k2, h64]
    simp only [control_chutes_bits, e0, e1, e2, e3, e6, e7]

/-- Witness of C14: the bytes `0xC5` (bits 7, 6, 2, 0: chutes 1 and 3 closed, lid open) and
`0x05` (bit 6 clear: no chute line written, lid closed), from all lines low. -/
theorem C14_chutes_byte_witness :
    (({ compRxInit with compRxState := .chutes } : CompRx).compRxState = .chutes ∧
      0xC5 < 256 ∧ 0x05 < 256) ∧
    (linesLow.run (compRxEventHandler { compRxInit with compRxState := .chutes } [0xC5]).out =
        { linesLow with chute1a := 1, chute2b := 1, chute3a := 1, chute4b := 1,
                        PWM_BoxLid_Compare := 1000 } ∧
      (compRxEventHandler { compRxInit with compRxState := .chutes } [0xC5]).st.compRxState =
        .pre0) ∧
    (linesLow.run (compRxEventHandler { compRxInit with compRxState := .chutes } [0x05]).out =
        { linesLow with PWM_BoxLid_Compare := 2000 } ∧
      (compRxEventHandler { compRxInit with compRxState := .chutes } [0x05]).st.compRxState =
        .pre0) :=
  ⟨⟨rfl, by decide, by decide⟩,
   ⟨((C14_chutes_byte { compRxInit with compRxState := .chutes } linesLow 0xC5 rfl
        (by decide)).2.2.2.1 (by decide)).trans (by decide),
    (C14_chutes_byte { compRxInit with compRxState := .chutes } linesLow 0xC5 rfl
        (by decide)).2.2.2.2.2⟩,
   ⟨((C14_chutes_byte { compRxInit with compRxState := .chutes } linesLow 0x05 rfl
        (by decide)).2.2.1 (by decide)).trans (by decide),
    (C14_chutes_byte { compRxInit with compRxState := .chutes } linesLow 0x05 rfl
        (by decide)).2.2.2.2.2⟩⟩

/-- C15. The lines after `driveHand c`, whatever they were before: `hand_a, hand_b,
hand_en` are `1, 0, 1` for `c = 1` (open), `0, 1, 1` for `c = 2` (close) and `0, 0, 0` for
every other value (hold), and no other line changes; hence the enable line is high exactly
for `c = 1` and `c = 2`, and the two drive lines are not both high once the call has
returned. -/
theorem C15_driveHand_tristate (l : Lines) (c : Nat) :
    l.run (driveHand c) =
      (if c = 1 then { l with hand_a := 1, hand_b := 0, hand_en := 1 }
       else if c = 2 then { l with hand_a := 0, hand_b := 1, hand_en := 1 }
       else { l with hand_a := 0, hand_b := 0, hand_en := 0 }) ∧
    ((l.run (driveHand c)).hand_en = 1 ↔ (c = 1 ∨ c = 2)) ∧
    ¬ ((l.run (driveHand c)).hand_a = 1 ∧ (l.run (driveHand c)).hand_b = 1) := by
  by_cases h1 : c = 1
  · subst h1
    simp [driveHand, Lines.run, Lines.write]
  · by_cases h2 : c = 2
    · subst h2
      simp [driveHand, Lines.run, Lines.write]
    · simp [driveHand, Lines.run, Lines.write, h1, h2]

/-- C16. A byte pair `lo, hi` consumed by `scienceEventHandler` in the `humlo` and `humhi`
states, with `p` the humidity published before: if `p ≤ 1023` the published humidity
becomes the 16-bit value `lo + 256 * hi` read as a signed 16-bit number (the value itself
below `32768`, the value minus `65536` from there on), whatever that value is; if
`p > 1023` it stays `p`. No other reading changes and the cursor returns to `pre0`. -/
theorem C16_humidity_gated_on_previous (st : ScienceStatics) (g : Readings) (lo hi : Nat)
    (hst : st.state = .humlo) (hlo : lo < 256) (hhi : hi < 256) :
    (scienceEventHandler st g [lo, hi]).g =
      { g with humidity :=
          if g.humidity ≤ 1023 then
            (if lo + 256 * hi < 32768 then ((lo + 256 * hi : Nat) : Int)
             else ((lo + 256 * hi : Nat) : Int) - 65536)
          else g.humidity } ∧
    (scienceEventHandler st g [lo, hi]).st.state = .pre0 ∧
    (scienceEventHandler st g [lo, hi]).rx = [] := by
  have e1 : lo % 65536 = lo := by omega
  have e4 : hi % 256 = hi := by omega
  have e5 : (lo + 256 * hi) % 65536 = lo + 256 * hi := by omega
  rw [scienceEventHandler_cons_clean st g lo hlo, scienceEventHandler_cons_clean _ _ hi hhi]
  simp only [scienceSwitch, hst, e1, assemble16_masked_left lo hi hlo, e4, scienceEventHandler,
    toInt16, e5]
  by_cases hp : g.humidity ≤ 1023 <;> simp [hp]

/-- Witness of C16: the pair `0x00, 0x80` (the value `32768`, far above `1023`) is
published as `-32768` when `1023` was published before, and is not published when `1024`
was. -/
theorem C16_humidity_gated_on_previous_witness :
    (({ state := .humlo, temp := 0 } : ScienceStatics).state = .humlo ∧ 0x00 < 256 ∧
      0x80 < 256) ∧
    ((scienceEventHandler { state := .humlo, temp := 0 } { readingsInit with humidity := 1023 }
        [0x00, 0x80]).g = { readingsInit with humidity := -32768 } ∧
      (scienceEventHandler { state := .humlo, temp := 0 } { readingsInit with humidity := 1023 }
        [0x00, 0x80]).st.state = .pre0) ∧
    ((scienceEventHandler { state := .humlo, temp := 0 } { readingsInit with humidity := 1024 }
        [0x00, 0x80]).g = { readingsInit with humidity := 1024 } ∧
      (scienceEventHandler { state := .humlo, temp := 0 } { readingsInit with humidity := 1024 }
        [0x00, 0x80]).st.state = .pre0) :=
  ⟨⟨rfl, by decide, by decide⟩,
   ⟨(C16_humidity_gated_on_previous { state := .humlo, temp := 0 }
        { readingsInit with humidity := 1023 } 0x00 0x80 rfl (by decide) (by decide)).1.trans
      (by decide),
    (C16_humidity_gated_on_previous { state := .humlo, temp := 0 }
        { readingsInit with humidity := 1023 } 0x00 0x80 rfl (by decide) (by decide)).2.1⟩,
   ⟨(C16_humidity_gated_on_previous { state := .humlo, temp := 0 }
        { readingsInit with humidity := 1024 } 0x00 0x80 rfl (by decide) (by decide)).1.trans
      (by decide),
    (C16_humidity_gated_on_previous { state := .humlo, temp := 0 }
        { readingsInit with humidity := 1024 } 0x00 0x80 rfl (by decide) (by decide)).2.1⟩⟩

/-- C17. The functions `updateShoulderPos` and `updateElbowPos` on a byte pair `lo, hi` from
the `low` state: the published shoulder (respectively elbow) position becomes
`lo + 256 * hi` whatever that value is, no other reading changes, the FIFO is emptied after
two iterations and the cursor is back at `low`. -/
theorem C17_shoulder_elbow_always_commit (st : PosStatics) (g : Readings) (lo hi : Nat)
    (hst : st.state = .low) (hlo : lo < 256) (hhi : hi < 256) :
    (updateShoulderPos st g [lo, hi]).g = { g with shoulderPos := lo + 256 * hi } ∧
    (updateShoulderPos st g [lo, hi]).st.state = .low ∧
    (updateShoulderPos st g [lo, hi]).rx = [] ∧
    (updateElbowPos st g [lo, hi]).g = { g with elbowPos := lo + 256 * hi } ∧
    (updateElbowPos st g [lo, hi]).st.state = .low ∧
    (updateElbowPos st g [lo, hi]).rx = [] := by
  rw [updateShoulderPos_pair st g lo hi hst hlo hhi, updateElbowPos_pair st g lo hi hst hlo hhi]
  exact ⟨rfl, rfl, rfl, rfl, rfl, rfl⟩

/-- Witness of C17: the pair `0x00, 0x10` (the value `4096`, above `4095`) is published by
both decoders, with `7` published before. -/
theorem C17_shoulder_elbow_always_commit_witness :
    (posInit.state = .low ∧ 0x00 < 256 ∧ 0x10 < 256) ∧
    ((updateShoulderPos posInit { readingsInit with shoulderPos := 7, elbowPos := 7 }
        [0x00, 0x10]).g =
        { ({ readingsInit with shoulderPos := 7, elbowPos := 7 } : Readings) with
          shoulderPos := 0x00 + 256 * 0x10 } ∧
      (updateShoulderPos posInit { readingsInit with shoulderPos := 7, elbowPos := 7 }
        [0x00, 0x10]).st.state = .low ∧
      (updateShoulderPos posInit { readingsInit with shoulderPos := 7, elbowPos := 7 }
        [0x00, 0x10]).rx = [] ∧
      (updateElbowPos posInit { readingsInit with shoulderPos := 7, elbowPos := 7 }
        [0x00, 0x10]).g =
        { ({ readingsInit with shoulderPos := 7, elbowPos := 7 } : Readings) with
          elbowPos := 0x00 + 256 * 0x10 } ∧
      (updateElbowPos posInit { readingsInit with shoulderPos := 7, elbowPos := 7 }
        [0x00, 0x10]).st.state = .low ∧
      (updateElbowPos posInit { readingsInit with shoulderPos := 7, elbowPos := 7 }
        [0x00, 0x10]).rx = []) :=
  ⟨⟨rfl, by decide, by decide⟩,
   C17_shoulder_elbow_always_commit posInit
     { readingsInit with shoulderPos := 7, elbowPos := 7 } 0x00 0x10 rfl (by decide)
     (by decide)⟩

/-- C18. In the preamble state a sequence `g` of zero-status bytes none of which is `0xEA`
is discarded: `compRxEventHandler` returns `SUCCESS` with the buffer empty, makes no driver
call, leaves `Payload` unchanged and stays in `pre0`; and `g` followed by a well-formed
frame gives exactly the result (driver calls, variables, return value) of the frame
alone. -/
theorem C18_garbage_discarded (s : CompRx) (g : List Nat) (f : CommandFrame)
    (hs : s.compRxState = .pre0) (hg : ∀ b ∈ g, b < 256 ∧ b ≠ 0xEA) (hf : f.wellFormed) :
    (compRxEventHandler s g).ret = SUCCESS ∧
    (compRxEventHandler s g).rx = [] ∧
    (compRxEventHandler s g).out = [] ∧
    (compRxEventHandler s g).st.Payload = s.Payload ∧
    (compRxEventHandler s g).st.compRxState = .pre0 ∧
    compRxEventHandler s (g ++ f.words) = compRxEventHandler s f.words := by
  have hclean : ∀ b ∈ g, b < 256 := fun b hb => (hg b hb).1
  have hall : ∀ b ∈ g ++ f.words, b < 256 := by
    intro b hb
    rcases List.mem_append.mp hb with h | h
    · exact hclean b h
    · exact f.words_clean hf b h
  obtain ⟨g1, g2, g3, g4⟩ := compRxLoop_garbage g hg s hs
  rw [compRxEventHandler_clean g hclean, compRxEventHandler_clean _ hall,
    compRxLoop_append g f.words hclean, compRxLoop_frame _ f g1 hf,
    compRxEventHandler_frame s f hs hf, g2, g3, g4]
  exact ⟨rfl, rfl, rfl, rfl, g1, rfl⟩

/-- Witness of C18: three garbage bytes before `demoFrame`, from the start-up state. -/
theorem C18_garbage_discarded_witness :
    (compRxInit.compRxState = .pre0 ∧ (∀ b ∈ [0x00, 0xE3, 0xFF], b < 256 ∧ b ≠ 0xEA) ∧
      demoFrame.wellFormed) ∧
    ((compRxEventHandler compRxInit [0x00, 0xE3, 0xFF]).ret = SUCCESS ∧
      (compRxEventHandler compRxInit [0x00, 0xE3, 0xFF]).rx = [] ∧
      (compRxEventHandler compRxInit [0x00, 0xE3, 0xFF]).out = [] ∧
      (compRxEventHandler compRxInit [0x00, 0xE3, 0xFF]).st.Payload = compRxInit.Payload ∧
      (compRxEventHandler compRxInit [0x00, 0xE3, 0xFF]).st.compRxState = .pre0 ∧
      compRxEventHandler compRxInit ([0x00, 0xE3, 0xFF] ++ demoFrame.words) =
        compRxEventHandler compRxInit demoFrame.words) :=
  ⟨⟨rfl, by decide, by decide⟩,
   C18_garbage_discarded compRxInit [0x00, 0xE3, 0xFF] demoFrame rfl (by decide) (by decide)⟩

/-- C19. For `updateShoulderPos`, `updateElbowPos` and `updateForearmPos`: the statics at
process start satisfy the invariant "cursor `high` implies accumulator at most `255`";
from statics that satisfy it, after any number `k` of loop iterations on any FIFO content
the invariant holds again and exactly `min k n` of the `n` words have been read, one per
iteration (so the guard `temp <= 4095` held in every `high` iteration and no iteration
skipped its read); a call therefore ends after exactly `n` iterations with the FIFO
empty. -/
theorem C19_accumulator_invariant (st : PosStatics) (g : Readings) (rx : List Nat) (k : Nat)
    (hinv : st.lowByteHeld) :
    posInit.lowByteHeld ∧
    ((updateShoulderPosLoop k st g rx).st.lowByteHeld ∧
      (updateShoulderPosLoop k st g rx).iters = min k rx.length ∧
      (updateShoulderPosLoop k st g rx).rx = rx.drop k) ∧
    ((updateElbowPosLoop k st g rx).st.lowByteHeld ∧
      (updateElbowPosLoop k st g rx).iters = min k rx.length ∧
      (updateElbowPosLoop k st g rx).rx = rx.drop k) ∧
    ((updateForearmPosLoop k st g rx).st.lowByteHeld ∧
      (updateForearmPosLoop k st g rx).iters = min k rx.length ∧
      (updateForearmPosLoop k st g rx).rx = rx.drop k) ∧
    ((updateShoulderPos st g rx).st.lowByteHeld ∧
      (updateShoulderPos st g rx).iters = rx.length ∧ (updateShoulderPos st g rx).rx = []) ∧
    ((updateElbowPos st g rx).st.lowByteHeld ∧
      (updateElbowPos st g rx).iters = rx.length ∧ (updateElbowPos st g rx).rx = []) ∧
    ((updateForearmPos st g rx).st.lowByteHeld ∧
      (updateForearmPos st g rx).iters = rx.length ∧ (updateForearmPos st g rx).rx = []) := by
  have hmin : min (2 * rx.length + 1) rx.length = rx.length := by omega
  have hdrop : rx.drop (2 * rx.length + 1) = [] := List.drop_eq_nil_of_le (by omega)
  have hs := updateShoulderPosLoop_inv (2 * rx.length + 1) st g rx hinv
  have he := updateElbowPosLoop_inv (2 * rx.length + 1) st g rx hinv
  have hf := updateForearmPosLoop_inv (2 * rx.length + 1) st g rx hinv
  rw [hmin, hdrop] at hs he hf
  refine ⟨fun h => ?_, updateShoulderPosLoop_inv k st g rx hinv,
    updateElbowPosLoop_inv k st g rx hinv, updateForearmPosLoop_inv k st g rx hinv,
    hs, he, hf⟩
  cases h

/-- Witness of C19: the statics after a first call that stopped on a lone low byte
(cursor `high`, accumulator `0xAB`), then a call with three words in the FIFO. -/
theorem C19_accumulator_invariant_witness :
    ({ state := .high, temp := 0xAB } : PosStatics).lowByteHeld ∧
    (updateShoulderPos posInit readingsInit [0xAB]).st = { state := .high, temp := 0xAB } ∧
    (updateForearmPos { state := .high, temp := 0xAB } readingsInit [0x0C, 0x01, 0x02]).iters =
      [0x0C, 0x01, 0x02].length ∧
    (updateForearmPos { state := .high, temp := 0xAB } readingsInit [0x0C, 0x01, 0x02]).rx =
      [] :=
  ⟨by decide, by decide,
   (C19_accumulator_invariant { state := .high, temp := 0xAB } readingsInit
      [0x0C, 0x01, 0x02] 0 (by decide)).2.2.2.2.2.2.2.1,
   (C19_accumulator_invariant { state := .high, temp := 0xAB } readingsInit
      [0x0C, 0x01, 0x02] 0 (by decide)).2.2.2.2.2.2.2.2⟩

/-- C20 fails on the code: from all hand lines low, `driveHand(2)` (close) followed by
`driveHand(1)` (open) writes `hand_a = 1` while `hand_b` is still `1` and `hand_en` is `1`;
after the fourth pin write both drive lines are high, until the next write lowers
`hand_b`. The triples are `(hand_a, hand_b, hand_en)` after each write. -/
theorem C20_hand_lines_both_high_on_reversal :
    driveHandCalls [2, 1] =
      [.hand_b_Write 1, .hand_a_Write 0, .hand_en_Write 1,
       .hand_a_Write 1, .hand_b_Write 0, .hand_en_Write 1] ∧
    (linesLow.afterEach (driveHandCalls [2, 1])).map
        (fun l => (l.hand_a, l.hand_b, l.hand_en)) =
      [(0, 1, 0), (0, 1, 0), (0, 1, 1), (1, 1, 1), (1, 0, 1), (1, 0, 1)] ∧
    (∃ l ∈ linesLow.afterEach (driveHandCalls [2, 1]), l.hand_a = 1 ∧ l.hand_b = 1) := by
  decide

/-- C21. Humidity latches once out of range: if the published humidity is greater than
`1023`, then whatever the cursor state and accumulator of `scienceEventHandler`, whatever
words arrive (faulty ones included) and however they are spread over successive calls,
the published humidity is the same after one call on all the words and after the calls
chunk by chunk. -/
theorem C21_humidity_latches (st : ScienceStatics) (g : Readings) (rx : List Nat)
    (chunks : List (List Nat)) (h : 1023 < g.humidity) :
    (scienceEventHandler st g rx).g.humidity = g.humidity ∧
    (scienceFeed st g [] chunks).2.humidity = g.humidity :=
  ⟨scienceEventHandler_humidity_latched rx st g h,
   scienceFeed_humidity_latched chunks st g [] h⟩

/-- Witness of C21: with `1024` published, two well-formed science frames carrying the
humidities `7` and `500`, fed in one call from `pre0` and in three chunks (the second ends
with a faulty word) from the start-up state, leave the humidity at `1024`. -/
theorem C21_humidity_latches_witness :
    (1023 : Int) < ({ readingsInit with humidity := 1024 } : Readings).humidity ∧
    (scienceEventHandler { state := .pre0, temp := 0 } { readingsInit with humidity := 1024 }
      [0xFF, 0x9E, 20, 0, 7, 0, 0xFF, 0x9E, 21, 0, 0xF4, 0x01]).g.humidity = 1024 ∧
    (scienceFeed scienceInit { readingsInit with humidity := 1024 } []
      [[0xFF, 0x9E, 20], [0, 7, 0, 0x0100], [0xFF, 0x9E, 21, 0, 0xF4, 0x01]]).2.humidity =
      1024 :=
  ⟨by decide,
   (C21_humidity_latches { state := .pre0, temp := 0 } { readingsInit with humidity := 1024 }
      [0xFF, 0x9E, 20, 0, 7, 0, 0xFF, 0x9E, 21, 0, 0xF4, 0x01] [] (by decide)).1,
   (C21_humidity_latches scienceInit { readingsInit with humidity := 1024 } []
      [[0xFF, 0x9E, 20], [0, 7, 0, 0x0100], [0xFF, 0x9E, 21, 0, 0xF4, 0x01]]
      (by decide)).2⟩

end IsrHandler
